import Mathlib

/-!
Verification of the page-layout model of `pero_ocr/document_ocr/layout.py`.

The Python source is shallowly embedded: lists model Python lists and
numpy arrays, `ℚ` models Python floats (the values arising here are exact
decimals), `ℤ` models Python ints, `Option` models `None`-able fields and
`Except PyError` models code that can raise.  Imperative loops become
explicit state-passing recursions.
-/

deriving instance DecidableEq for Except

namespace PeroOcr

attribute [local semireducible] Rat.add Rat.sub Rat.mul Rat.inv

/-- Python exception kinds raised (or, for `missingPrerequisite` and
`missingLineData`, merely named by the documentation's error taxonomy
while never being raised by the code) during layout processing. -/
inductive PyError where
  /-- `AttributeError`, e.g. `None.toarray()` when `line.logits is None`. -/
  | attributeError : PyError
  /-- `TypeError`, e.g. `len(None)` when `line.characters is None`. -/
  | typeError : PyError
  /-- `IndexError`, e.g. `np.array(None)[:, 1]` or `findall(..)[0]` on `[]`. -/
  | indexError : PyError
  /-- `KeyError`, e.g. a dict lookup `char_to_num[item]` with a missing key. -/
  | keyError : PyError
  /-- `ValueError`, e.g. `np.max` / `np.min` of an empty array. -/
  | valueError : PyError
  /-- `ZeroDivisionError`, e.g. `x / (len(aligned)*4)` with no frames. -/
  | zeroDivisionError : PyError
  /-- The generic `Exception(f'Missing line id {id} ...')` raised by
  `PageLayout.load_logits` when a page line has no snapshot entry. -/
  | missingLineId (id : String) : PyError
  /-- The generic `Exception(f'Missing logits for line {id}.')` raised by
  `PageLayout.save_logits`. -/
  | missingLogits (id : String) : PyError
  /-- Modelled from the spec: the error taxonomy of the documentation names a
  `MissingPrerequisite` error for reconstruction on a deficient line.  No such
  class exists in `layout.py`; no code path of the embedding produces it. -/
  | missingPrerequisite : PyError
  deriving DecidableEq, Repr

/-! ## `narrow_label` (layout.py lines 523-552)

The Python routine mutates the list `label` in place while iterating over it
with `enumerate`; every mutation touches only indices strictly below the one
currently being visited, so iterating over the original values while
threading the mutated list through the recursion is faithful. -/

/-- The flush step of `narrow_label` (lines 530-537 and 543-550): when
`repeating` is non-empty, write `subst` at every index in `repeating`, then
restore `last_char` at the first of those indices. -/
def narrowFlush (lab : List ℤ) (rep : List ℕ) (lastChar : ℤ) (subst : ℤ) : List ℤ :=
  match rep with
  | [] => lab
  | high :: _ => (rep.foldl (fun l e => l.set e subst) lab).set high lastChar

/-- The loop of `narrow_label` (lines 524-550), one constructor case per
iteration of `for i, item in enumerate(label)`, plus the trailing flush.
`last = none` models `last_char = None`; the `lastChar` argument of the
flush is only consumed when `rep` is non-empty, in which case `last` is
`some _`, so the `getD 0` default is never observable. -/
def narrowGo (idxOfLast subst : ℤ) :
    List ℤ → ℕ → Option ℤ → List ℕ → List ℤ → List ℤ
  | [], _, last, rep, lab => narrowFlush lab rep (last.getD 0) subst
  | item :: rest, i, last, rep, lab =>
    if last = some item ∧ item ≠ idxOfLast then
      narrowGo idxOfLast subst rest (i + 1) (some item) (rep ++ [i]) lab
    else
      narrowGo idxOfLast subst rest (i + 1) (some item)
        (if last ≠ some item then (if item ≠ idxOfLast then [i] else []) else rep)
        (narrowFlush lab rep (last.getD 0) subst)

/-- `narrow_label(label, logit, idx_of_last, on_one_liberal)`.  The `logit`
parameter of the Python function is never read by its body, so it is not a
parameter of the embedding. -/
def narrow_label (label : List ℤ) (idxOfLast : ℤ) (onOneLiberal : Bool := false) : List ℤ :=
  narrowGo idxOfLast (if onOneLiberal then idxOfLast - 1 else idxOfLast) label 0 none [] label

/-- The value the narrowing pass leaves at position `j`: a frame keeps its
label unless it repeats the immediately preceding frame's non-blank label,
in which case it is rewritten to `subst`. -/
def narrowedAt (l : List ℤ) (blank subst : ℤ) (j : ℕ) : ℤ :=
  if 0 < j ∧ l.getD (j - 1) 0 = l.getD j 0 ∧ l.getD j 0 ≠ blank then subst else l.getD j 0

lemma getD_set (lab : List ℤ) (e j : ℕ) (s : ℤ) :
    (lab.set e s).getD j 0 = if e = j ∧ e < lab.length then s else lab.getD j 0 := by
  rw [List.getD_eq_getElem?_getD, List.getElem?_set]
  by_cases h1 : e = j
  · subst h1
    by_cases h2 : e < lab.length <;> simp [h2, List.getD_eq_getElem?_getD]
    rw [List.getElem?_eq_none (by omega)]
    rfl
  · simp [h1, List.getD_eq_getElem?_getD]

lemma length_foldl_set (rep : List ℕ) (lab : List ℤ) (s : ℤ) :
    (rep.foldl (fun l e => l.set e s) lab).length = lab.length := by
  induction rep generalizing lab with
  | nil => rfl
  | cons e t ih => rw [List.foldl_cons, ih, List.length_set]

lemma getD_foldl_set (rep : List ℕ) (lab : List ℤ) (s : ℤ) (j : ℕ) :
    (rep.foldl (fun l e => l.set e s) lab).getD j 0 =
      if j ∈ rep ∧ j < lab.length then s else lab.getD j 0 := by
  induction rep generalizing lab with
  | nil => simp
  | cons e t ih =>
    rw [List.foldl_cons, ih, List.length_set, getD_set]
    by_cases hl : j < lab.length
    · by_cases hm : j ∈ t
      · simp [hm, hl, List.mem_cons]
      · by_cases he : e = j
        · subst he
          simp [hm, hl, List.mem_cons]
        · simp [hm, hl, List.mem_cons, he, Ne.symm he]
    · rw [if_neg (fun hc => hl hc.2),
        if_neg (fun hc : e = j ∧ e < lab.length => hl (hc.1 ▸ hc.2)),
        if_neg (fun hc => hl hc.2)]

lemma narrowFlush_nil (lab : List ℤ) (c s : ℤ) : narrowFlush lab [] c s = lab := rfl

/-- Effect of flushing a pending run occupying positions `[r, i)`. -/
lemma flush_result (l lab : List ℤ) (blank subst : ℤ) (r i : ℕ)
    (hri : r < i) (hi : i ≤ l.length) (hlen : lab.length = l.length)
    (hc : l.getD (i - 1) 0 ≠ blank)
    (hrun : ∀ j, r ≤ j → j < i → l.getD j 0 = l.getD (i - 1) 0)
    (hstart : r = 0 ∨ l.getD (r - 1) 0 ≠ l.getD r 0)
    (hhi : ∀ j, r ≤ j → lab.getD j 0 = l.getD j 0)
    (hlo : ∀ j, j < r → lab.getD j 0 = narrowedAt l blank subst j) :
    (narrowFlush lab (List.range' r (i - r)) (l.getD (i - 1) 0) subst).length = l.length ∧
    (∀ j, j < i →
      (narrowFlush lab (List.range' r (i - r)) (l.getD (i - 1) 0) subst).getD j 0 =
        narrowedAt l blank subst j) ∧
    (∀ j, i ≤ j →
      (narrowFlush lab (List.range' r (i - r)) (l.getD (i - 1) 0) subst).getD j 0 =
        l.getD j 0) := by
  have hcons : List.range' r (i - r) = r :: List.range' (r + 1) (i - r - 1) := by
    have hrk : i - r = (i - r - 1) + 1 := by omega
    conv_lhs => rw [hrk]
    rw [List.range'_succ]
  have hflush : narrowFlush lab (List.range' r (i - r)) (l.getD (i - 1) 0) subst =
      ((List.range' r (i - r)).foldl (fun la e => la.set e subst) lab).set r
        (l.getD (i - 1) 0) := by
    rw [hcons]; rfl
  have hmain : ∀ j, (narrowFlush lab (List.range' r (i - r)) (l.getD (i - 1) 0) subst).getD j 0 =
      if r = j ∧ r < lab.length then l.getD (i - 1) 0
      else if (j ∈ List.range' r (i - r)) ∧ j < lab.length then subst
      else lab.getD j 0 := by
    intro j
    rw [hflush, getD_set, length_foldl_set, getD_foldl_set]
  refine ⟨?_, ?_, ?_⟩
  · rw [hflush, List.length_set, length_foldl_set, hlen]
  · intro j hj
    rw [hmain j]
    rcases eq_or_ne r j with hjr | hjr
    · rw [if_pos ⟨hjr, by omega⟩]
      have hlr : l.getD r 0 = l.getD (i - 1) 0 := hrun r le_rfl (by omega)
      simp only [narrowedAt, ← hjr]
      rcases hstart with h0 | hne
      · rw [if_neg (fun hcond => by omega : ¬(0 < r ∧ l.getD (r - 1) 0 = l.getD r 0 ∧
          l.getD r 0 ≠ blank))]
        exact hlr.symm
      · rw [if_neg (fun hcond => hne hcond.2.1)]
        exact hlr.symm
    · rcases lt_or_le j r with hlt | hge
      · -- below the run: value already final
        have hmem : j ∉ List.range' r (i - r) := by
          rw [List.mem_range'_1]; omega
        rw [if_neg (fun hcond => hjr hcond.1), if_neg (fun hcond => hmem hcond.1)]
        exact hlo j hlt
      · -- strict interior of the run
        have hmem : j ∈ List.range' r (i - r) := by
          rw [List.mem_range'_1]; omega
        rw [if_neg (fun hcond => hjr hcond.1), if_pos ⟨hmem, by omega⟩]
        simp only [narrowedAt]
        have h1 : l.getD (j - 1) 0 = l.getD (i - 1) 0 := hrun (j - 1) (by omega) (by omega)
        have h2 : l.getD j 0 = l.getD (i - 1) 0 := hrun j hge hj
        rw [if_pos ⟨by omega, by rw [h1, h2], by rw [h2]; exact hc⟩]
  · intro j hj
    have hmem : j ∉ List.range' r (i - r) := by
      rw [List.mem_range'_1]; omega
    rw [hmain j, if_neg (fun hcond => absurd hcond.1 (by omega)),
      if_neg (fun hcond => hmem hcond.1)]
    exact hhi j (by omega)

/-- Invariant-based correctness of the `narrow_label` loop.  The invariant
distinguishes "no pending run" (the previous frame, if any, was blank) from
"pending run occupying positions `[r, i)`". -/
lemma narrowGo_spec (l : List ℤ) (blank subst : ℤ) :
    ∀ (s : List ℤ) (i : ℕ) (last : Option ℤ) (rep : List ℕ) (lab : List ℤ),
      s = l.drop i → i ≤ l.length → lab.length = l.length →
      (∀ j, i ≤ j → lab.getD j 0 = l.getD j 0) →
      last = (if i = 0 then none else some (l.getD (i - 1) 0)) →
      ((rep = [] ∧ (i = 0 ∨ l.getD (i - 1) 0 = blank) ∧
          ∀ j, j < i → lab.getD j 0 = narrowedAt l blank subst j) ∨
        (∃ r, rep = List.range' r (i - r) ∧ r < i ∧
          l.getD (i - 1) 0 ≠ blank ∧
          (∀ j, r ≤ j → j < i → l.getD j 0 = l.getD (i - 1) 0) ∧
          (r = 0 ∨ l.getD (r - 1) 0 ≠ l.getD r 0) ∧
          (∀ j, r ≤ j → lab.getD j 0 = l.getD j 0) ∧
          (∀ j, j < r → lab.getD j 0 = narrowedAt l blank subst j))) →
      (narrowGo blank subst s i last rep lab).length = l.length ∧
      ∀ j, j < l.length →
        (narrowGo blank subst s i last rep lab).getD j 0 = narrowedAt l blank subst j := by
  intro s
  induction s with
  | nil =>
    intro i last rep lab hs hi hlen hhi hlast hinv
    have hieq : i = l.length := by
      have hlc := congrArg List.length hs
      simp only [List.length_nil, List.length_drop] at hlc
      omega
    rcases hinv with ⟨hrep, _, hfin⟩ | ⟨r, hrep, hri, hc, hrun, hstart, hhir, hlor⟩
    · subst hrep
      exact ⟨hlen, fun j hj => hfin j (by omega)⟩
    · subst hrep
      have hgo : narrowGo blank subst [] i last (List.range' r (i - r)) lab =
          narrowFlush lab (List.range' r (i - r)) (last.getD 0) subst := rfl
      have hlast' : last.getD 0 = l.getD (i - 1) 0 := by
        rw [hlast, if_neg (by omega : ¬i = 0)]
        rfl
      rw [hgo, hlast']
      obtain ⟨h1, h2, _⟩ :=
        flush_result l lab blank subst r i hri (by omega) hlen hc hrun hstart hhir hlor
      exact ⟨h1, fun j hj => h2 j (by omega)⟩
  | cons item rest ih =>
    intro i last rep lab hs hi hlen hhi hlast hinv
    have hilt : i < l.length := by
      by_contra hcon
      rw [List.drop_eq_nil_of_le (by omega)] at hs
      exact List.cons_ne_nil _ _ hs
    have hsplit : l.drop i = l.getD i 0 :: l.drop (i + 1) := by
      rw [List.drop_eq_getElem_cons hilt]
      congr 1
      rw [List.getD_eq_getElem?_getD, List.getElem?_eq_getElem hilt]
      rfl
    rw [hsplit] at hs
    injection hs with hitem hrest
    subst hitem
    rw [narrowGo]
    by_cases hcond : last = some (l.getD i 0) ∧ l.getD i 0 ≠ blank
    · rw [if_pos hcond]
      have hi0 : i ≠ 0 := by
        intro h0
        rw [hlast, if_pos h0] at hcond
        exact Option.noConfusion hcond.1
      have hprev : l.getD (i - 1) 0 = l.getD i 0 := by
        rw [hlast, if_neg hi0] at hcond
        exact Option.some.inj hcond.1
      rcases hinv with ⟨_, hE, _⟩ | ⟨r, hrep, hri, hc, hrun, hstart, hhir, hlor⟩
      · rcases hE with h0 | hb
        · exact absurd h0 hi0
        · exact absurd (hprev ▸ hb) hcond.2
      · have hrep' : rep ++ [i] = List.range' r ((i + 1) - r) := by
          rw [hrep]
          have h1 : (i + 1) - r = (i - r) + 1 := by omega
          rw [h1, List.range'_concat]
          congr 2
          omega
        rw [hrep']
        refine ih (i + 1) (some (l.getD i 0)) _ lab hrest ?_ hlen ?_ ?_ (Or.inr ⟨r, rfl, ?_, ?_, ?_, ?_, ?_, ?_⟩)
        · omega
        · intro j hj
          exact hhi j (by omega)
        · simp
        · omega
        · simpa using hcond.2
        · intro j hjr hji
          simp only [Nat.add_sub_cancel]
          rcases Nat.lt_or_ge j i with hlt | hge
          · exact (hrun j hjr hlt).trans hprev
          · have : j = i := by omega
            rw [this]
        · exact hstart
        · exact hhir
        · exact hlor
    · rw [if_neg hcond]
      rcases hinv with ⟨hrep, hE, hEfin⟩ | ⟨r, hrep, hri, hc, hrun, hstart, hhir, hlor⟩
      · -- no pending run: the flush is a no-op
        subst hrep
        rw [narrowFlush_nil]
        by_cases hsame : last = some (l.getD i 0)
        · -- current item equals previous: both must be blank here
          have hi0 : i ≠ 0 := by
            intro h0
            rw [hlast, if_pos h0] at hsame
            exact Option.noConfusion hsame
          have hbl : l.getD i 0 = blank := by
            by_contra hnb
            exact hcond ⟨hsame, hnb⟩
          rw [if_neg (by simpa using hsame)]
          refine ih (i + 1) (some (l.getD i 0)) _ lab hrest (by omega) hlen
            (fun j hj => hhi j (by omega)) (by simp) (Or.inl ⟨rfl, Or.inr (by simpa using hbl), ?_⟩)
          intro j hj
          rcases Nat.lt_or_ge j i with hlt | hge
          · exact hEfin j hlt
          · have hji : j = i := by omega
            rw [hji, hhi i le_rfl, narrowedAt, if_neg (fun hco => hco.2.2 hbl)]
        · rw [if_pos (by simpa using hsame)]
          by_cases hbl : l.getD i 0 ≠ blank
          · rw [if_pos hbl]
            refine ih (i + 1) (some (l.getD i 0)) _ lab hrest (by omega) hlen
              (fun j hj => hhi j (by omega)) (by simp)
              (Or.inr ⟨i, by simp [List.range'_one], by omega, by simpa using hbl, ?_, ?_, ?_, ?_⟩)
            · intro j hjr hji
              have : j = i := by omega
              simp [this]
            · rcases hE with h0 | hb
              · exact Or.inl h0
              · refine Or.inr ?_
                rw [hb]
                exact fun hcon => hbl hcon.symm
            · intro j hjr
              exact hhi j hjr
            · exact hEfin
          · rw [if_neg hbl]
            have hbl' : l.getD i 0 = blank := by
              by_contra hnb
              exact hbl hnb
            refine ih (i + 1) (some (l.getD i 0)) _ lab hrest (by omega) hlen
              (fun j hj => hhi j (by omega)) (by simp)
              (Or.inl ⟨rfl, Or.inr (by simpa using hbl'), ?_⟩)
            intro j hj
            rcases Nat.lt_or_ge j i with hlt | hge
            · exact hEfin j hlt
            · have hji : j = i := by omega
              rw [hji, hhi i le_rfl, narrowedAt, if_neg (fun hco => hco.2.2 hbl')]
      · -- pending run: the flush finalizes positions [r, i)
        subst hrep
        have hi0 : i ≠ 0 := by omega
        have hlastc : last = some (l.getD (i - 1) 0) := by
          rw [hlast, if_neg hi0]
        have hsame : last ≠ some (l.getD i 0) := by
          intro hco
          rw [hlastc] at hco
          have hpi : l.getD (i - 1) 0 = l.getD i 0 := Option.some.inj hco
          exact hcond ⟨hlastc.trans (by rw [hpi]), hpi ▸ hc⟩
        have hgd : last.getD 0 = l.getD (i - 1) 0 := by
          rw [hlastc]
          rfl
        rw [hgd]
        obtain ⟨hf1, hf2, hf3⟩ :=
          flush_result l lab blank subst r i hri (by omega) hlen hc hrun hstart hhir hlor
        have hitem_ne : l.getD i 0 ≠ l.getD (i - 1) 0 := by
          intro hco
          exact hsame (by rw [hlastc, hco])
        rw [if_pos (by simpa using hsame)]
        by_cases hbl : l.getD i 0 ≠ blank
        · rw [if_pos hbl]
          refine ih (i + 1) (some (l.getD i 0)) _ _ hrest (by omega) hf1
            (fun j hj => hf3 j (by omega)) (by simp)
            (Or.inr ⟨i, by simp [List.range'_one], by omega, by simpa using hbl, ?_, ?_, ?_, ?_⟩)
          · intro j hjr hji
            have : j = i := by omega
            simp [this]
          · exact Or.inr (Ne.symm hitem_ne)
          · intro j hjr
            exact hf3 j hjr
          · exact hf2
        · rw [if_neg hbl]
          have hbl' : l.getD i 0 = blank := by
            by_contra hnb
            exact hbl hnb
          refine ih (i + 1) (some (l.getD i 0)) _ _ hrest (by omega) hf1
            (fun j hj => hf3 j (by omega)) (by simp)
            (Or.inl ⟨rfl, Or.inr (by simpa using hbl'), ?_⟩)
          intro j hj
          rcases Nat.lt_or_ge j i with hlt | hge
          · exact hf2 j hlt
          · have hji : j = i := by omega
            rw [hji, hf3 i le_rfl, narrowedAt, if_neg (fun hco => hco.2.2 hbl')]

/-- C6: `narrow_label` scans the path once and, for every maximal run of
consecutive, identical, non-blank labels, keeps the run's first frame's label
and rewrites every other frame of the run to the blank index (or to
`idx_of_last - 1` in liberal mode); the transform never changes the path's
length; in particular `[2,2,2,5,1,1,5,5]` with blank `5` narrows to
`[2,5,5,5,1,5,5,5]`.  (Pointwise: a frame is rewritten exactly when it
repeats the previous frame's non-blank label.) -/
theorem narrow_label_narrows (label : List ℤ) (blank : ℤ) (liberal : Bool) :
    (narrow_label label blank liberal).length = label.length ∧
    (∀ j, j < label.length →
      (narrow_label label blank liberal).getD j 0 =
        if 0 < j ∧ label.getD (j - 1) 0 = label.getD j 0 ∧ label.getD j 0 ≠ blank
        then (if liberal then blank - 1 else blank) else label.getD j 0) ∧
    narrow_label [2, 2, 2, 5, 1, 1, 5, 5] 5 false = [2, 5, 5, 5, 1, 5, 5, 5] := by
  have h := narrowGo_spec label blank (if liberal then blank - 1 else blank) label 0 none []
    label rfl (Nat.zero_le _) rfl (fun j hj => rfl) rfl
    (Or.inl ⟨rfl, Or.inl rfl, fun j hj => absurd hj (Nat.not_lt_zero j)⟩)
  refine ⟨h.1, fun j hj => ?_, by decide⟩
  have h2 := h.2 j hj
  simp only [narrowedAt] at h2
  exact h2

/-- Witness for C6 at the concrete input of the claim. -/
theorem narrow_label_narrows_witness :
    (narrow_label [2, 2, 2, 5, 1, 1, 5, 5] 5 false).getD 1 0 = 5 := by
  have h := (narrow_label_narrows [2, 2, 2, 5, 1, 1, 5, 5] 5 false).2.1 1 (by decide)
  exact h.trans (by decide)

/-! ## The word/gap boundary walk (layout.py lines 286-312)

For one word, lines 288-309 scan the whole `aligned` path from frame 0,
counting non-blank frames in `local_letter_counter`; lines 311-312 apply the
default width when the loop never hit its `break`.  The blank sentinel is
`len(chars)`, the alphabet size. -/

/-- The per-word scan state: `local_letter_counter`, `string_hpos`,
`string_width`, `end_of_space`, `final`, `last` of lines 288-294. -/
structure WalkSt where
  localCounter : ℕ
  hpos : ℤ
  width : ℤ
  endOfSpace : ℤ
  final : Bool
  last : Bool
  deriving DecidableEq, Repr

/-- The `for a, ali in enumerate(aligned)` loop of lines 296-309.  The Python
comparisons `local - global == word_lenght` (only reached when
`local > global`) and `local - global == 0` (only reached when
`local <= global`) are written as the equivalent integer equalities to avoid
truncated natural subtraction. -/
def walkGo (lenChars : ℤ) (globalCounter wordLen : ℕ) :
    List ℤ → ℕ → WalkSt → WalkSt
  | [], _, st => st
  | ali :: rest, a, st =>
    if ali ≠ lenChars then
      if st.localCounter > globalCounter then
        if st.final then
          { st with endOfSpace := 4 * (a : ℤ), last := false }
        else if st.localCounter = globalCounter + wordLen then
          walkGo lenChars globalCounter wordLen rest (a + 1)
            { st with width := 4 * (a : ℤ) - st.hpos, final := true,
                      localCounter := st.localCounter + 1 }
        else
          walkGo lenChars globalCounter wordLen rest (a + 1)
            { st with localCounter := st.localCounter + 1 }
      else if st.localCounter = globalCounter then
        walkGo lenChars globalCounter wordLen rest (a + 1)
          { st with hpos := 4 * (a : ℤ), localCounter := st.localCounter + 1 }
      else
        walkGo lenChars globalCounter wordLen rest (a + 1)
          { st with localCounter := st.localCounter + 1 }
    else
      walkGo lenChars globalCounter wordLen rest (a + 1) st

/-- One word's boundary walk: the loop of lines 296-309 started from the
fresh state of lines 288-294, followed by the `if last:` default of lines
311-312. -/
def wordWalk (lenChars : ℤ) (globalCounter wordLen : ℕ) (aligned : List ℤ) : WalkSt :=
  let st := walkGo lenChars globalCounter wordLen aligned 0
    { localCounter := 0, hpos := 0, width := 0, endOfSpace := 0, final := false, last := true }
  if st.last then { st with width := 4 * (aligned.length : ℤ) - st.hpos } else st

/-- `firstAt blank target s a cnt`: the absolute index of the first frame of
`s` (whose first frame has absolute index `a`, with `cnt` non-blank frames
strictly before it) that is non-blank and sees exactly `target` non-blank
frames strictly before itself — i.e. the `(target+1)`-th non-blank frame. -/
def firstAt (blank : ℤ) (target : ℕ) : List ℤ → ℕ → ℕ → Option ℕ
  | [], _, _ => none
  | x :: rest, a, cnt =>
    if x ≠ blank then
      if cnt = target then some a else firstAt blank target rest (a + 1) (cnt + 1)
    else firstAt blank target rest (a + 1) cnt

lemma firstAt_cons_blank (blank : ℤ) (t : ℕ) (x : ℤ) (r : List ℤ) (a cnt : ℕ) (hx : x = blank) :
    firstAt blank t (x :: r) a cnt = firstAt blank t r (a + 1) cnt := by
  rw [firstAt, if_neg (fun h => h hx)]

lemma firstAt_cons_hit (blank : ℤ) (t : ℕ) (x : ℤ) (r : List ℤ) (a cnt : ℕ)
    (hx : x ≠ blank) (hc : cnt = t) :
    firstAt blank t (x :: r) a cnt = some a := by
  rw [firstAt, if_pos hx, if_pos hc]

lemma firstAt_cons_miss (blank : ℤ) (t : ℕ) (x : ℤ) (r : List ℤ) (a cnt : ℕ)
    (hx : x ≠ blank) (hc : cnt ≠ t) :
    firstAt blank t (x :: r) a cnt = firstAt blank t r (a + 1) (cnt + 1) := by
  rw [firstAt, if_pos hx, if_neg hc]

lemma walkGo_cons_blank (blank : ℤ) (g wlen : ℕ) (x : ℤ) (r : List ℤ) (a : ℕ) (st : WalkSt)
    (hx : x = blank) :
    walkGo blank g wlen (x :: r) a st = walkGo blank g wlen r (a + 1) st := by
  rw [walkGo, if_neg (fun h => h hx)]

lemma walkGo_cons_break (blank : ℤ) (g wlen : ℕ) (x : ℤ) (r : List ℤ) (a : ℕ) (st : WalkSt)
    (hx : x ≠ blank) (hg : st.localCounter > g) (hf : st.final = true) :
    walkGo blank g wlen (x :: r) a st =
      { st with endOfSpace := 4 * (a : ℤ), last := false } := by
  rw [walkGo, if_pos hx, if_pos hg, if_pos hf]

lemma walkGo_cons_complete (blank : ℤ) (g wlen : ℕ) (x : ℤ) (r : List ℤ) (a : ℕ) (st : WalkSt)
    (hx : x ≠ blank) (hg : st.localCounter > g) (hf : st.final = false)
    (hc : st.localCounter = g + wlen) :
    walkGo blank g wlen (x :: r) a st =
      walkGo blank g wlen r (a + 1)
        { st with width := 4 * (a : ℤ) - st.hpos, final := true,
                  localCounter := st.localCounter + 1 } := by
  rw [walkGo, if_pos hx, if_pos hg, if_neg (by simp [hf] : ¬st.final = true), if_pos hc]

lemma walkGo_cons_scan (blank : ℤ) (g wlen : ℕ) (x : ℤ) (r : List ℤ) (a : ℕ) (st : WalkSt)
    (hx : x ≠ blank) (hg : st.localCounter > g) (hf : st.final = false)
    (hc : st.localCounter ≠ g + wlen) :
    walkGo blank g wlen (x :: r) a st =
      walkGo blank g wlen r (a + 1) { st with localCounter := st.localCounter + 1 } := by
  rw [walkGo]
  simp [hx, hg, hf, hc]

lemma walkGo_cons_start (blank : ℤ) (g wlen : ℕ) (x : ℤ) (r : List ℤ) (a : ℕ) (st : WalkSt)
    (hx : x ≠ blank) (hg : ¬st.localCounter > g) (he : st.localCounter = g) :
    walkGo blank g wlen (x :: r) a st =
      walkGo blank g wlen r (a + 1)
        { st with hpos := 4 * (a : ℤ), localCounter := st.localCounter + 1 } := by
  rw [walkGo]
  simp [hx, hg, he]

lemma walkGo_cons_skip (blank : ℤ) (g wlen : ℕ) (x : ℤ) (r : List ℤ) (a : ℕ) (st : WalkSt)
    (hx : x ≠ blank) (hg : ¬st.localCounter > g) (he : st.localCounter ≠ g) :
    walkGo blank g wlen (x :: r) a st =
      walkGo blank g wlen r (a + 1) { st with localCounter := st.localCounter + 1 } := by
  rw [walkGo]
  simp [hx, hg, he]

/-- In "final" mode (width recorded, waiting for the `break` frame) the walk
only watches for the next non-blank frame. -/
lemma walkGo_final (blank : ℤ) (g wlen : ℕ) :
    ∀ (s : List ℤ) (a : ℕ) (st : WalkSt), st.final = true → st.last = true →
      g < st.localCounter →
      (walkGo blank g wlen s a st).hpos = st.hpos ∧
      (walkGo blank g wlen s a st).width = st.width ∧
      (walkGo blank g wlen s a st).last =
        (firstAt blank st.localCounter s a st.localCounter).isNone := by
  intro s
  induction s with
  | nil =>
    intro a st hf hl hg
    exact ⟨rfl, rfl, hl⟩
  | cons x r ih =>
    intro a st hf hl hg
    by_cases hx : x = blank
    · rw [walkGo_cons_blank blank g wlen x r a st hx, firstAt_cons_blank blank _ x r a _ hx]
      exact ih (a + 1) st hf hl hg
    · rw [walkGo_cons_break blank g wlen x r a st hx hg hf,
        firstAt_cons_hit blank _ x r a _ hx rfl]
      exact ⟨rfl, rfl, rfl⟩

/-- In "scan" mode (start already recorded, width not yet) the walk records
`4*c - hpos` at the completion frame `c` and then `break`s at the next
non-blank frame, if any. -/
lemma walkGo_scan (blank : ℤ) (g wlen : ℕ) :
    ∀ (s : List ℤ) (a : ℕ) (st : WalkSt), st.final = false → st.last = true →
      g < st.localCounter → st.localCounter ≤ g + wlen →
      (walkGo blank g wlen s a st).hpos = st.hpos ∧
      (walkGo blank g wlen s a st).width =
        (match firstAt blank (g + wlen) s a st.localCounter with
         | some c => 4 * (c : ℤ) - st.hpos
         | none => st.width) ∧
      (walkGo blank g wlen s a st).last =
        (firstAt blank (g + wlen + 1) s a st.localCounter).isNone := by
  intro s
  induction s with
  | nil =>
    intro a st hf hl hg hle
    exact ⟨rfl, rfl, hl⟩
  | cons x r ih =>
    intro a st hf hl hg hle
    by_cases hx : x = blank
    · rw [walkGo_cons_blank blank g wlen x r a st hx,
        firstAt_cons_blank blank (g + wlen) x r a _ hx,
        firstAt_cons_blank blank (g + wlen + 1) x r a _ hx]
      exact ih (a + 1) st hf hl hg hle
    · by_cases hc : st.localCounter = g + wlen
      · rw [walkGo_cons_complete blank g wlen x r a st hx hg hf hc,
          firstAt_cons_hit blank (g + wlen) x r a _ hx hc,
          firstAt_cons_miss blank (g + wlen + 1) x r a _ hx (by omega)]
        obtain ⟨h1, h2, h3⟩ := walkGo_final blank g wlen r (a + 1)
          { st with width := 4 * (a : ℤ) - st.hpos, final := true,
                    localCounter := st.localCounter + 1 } rfl hl (by simp; omega)
        refine ⟨h1, by rw [h2], by rw [h3]; simp [hc]⟩
      · rw [walkGo_cons_scan blank g wlen x r a st hx hg hf hc,
          firstAt_cons_miss blank (g + wlen) x r a _ hx hc,
          firstAt_cons_miss blank (g + wlen + 1) x r a _ hx (by omega)]
        obtain ⟨h1, h2, h3⟩ := ih (a + 1)
          { st with localCounter := st.localCounter + 1 } hf hl (by simp; omega)
          (by simp; omega)
        exact ⟨h1, h2, h3⟩

/-- In "seek" mode (fewer than `g` non-blank frames seen so far) the walk
skips to the `(g+1)`-th non-blank frame, records it as `hpos`, and proceeds
in scan mode. -/
lemma walkGo_seek (blank : ℤ) (g wlen : ℕ) (hw : 0 < wlen) :
    ∀ (s : List ℤ) (a : ℕ) (st : WalkSt), st.final = false → st.last = true →
      st.localCounter ≤ g →
      (walkGo blank g wlen s a st).hpos =
        (match firstAt blank g s a st.localCounter with
         | some b => 4 * (b : ℤ)
         | none => st.hpos) ∧
      (walkGo blank g wlen s a st).width =
        (match firstAt blank (g + wlen) s a st.localCounter with
         | some c => 4 * (c : ℤ) -
             (match firstAt blank g s a st.localCounter with
              | some b => 4 * (b : ℤ)
              | none => st.hpos)
         | none => st.width) ∧
      (walkGo blank g wlen s a st).last =
        (firstAt blank (g + wlen + 1) s a st.localCounter).isNone := by
  intro s
  induction s with
  | nil =>
    intro a st hf hl hle
    exact ⟨rfl, rfl, hl⟩
  | cons x r ih =>
    intro a st hf hl hle
    by_cases hx : x = blank
    · rw [walkGo_cons_blank blank g wlen x r a st hx,
        firstAt_cons_blank blank g x r a _ hx,
        firstAt_cons_blank blank (g + wlen) x r a _ hx,
        firstAt_cons_blank blank (g + wlen + 1) x r a _ hx]
      exact ih (a + 1) st hf hl hle
    · by_cases hc : st.localCounter = g
      · rw [walkGo_cons_start blank g wlen x r a st hx (by omega) hc,
          firstAt_cons_hit blank g x r a _ hx hc,
          firstAt_cons_miss blank (g + wlen) x r a _ hx (by omega),
          firstAt_cons_miss blank (g + wlen + 1) x r a _ hx (by omega)]
        obtain ⟨h1, h2, h3⟩ := walkGo_scan blank g wlen r (a + 1)
          { st with hpos := 4 * (a : ℤ), localCounter := st.localCounter + 1 }
          hf hl (by simp; omega) (by simp; omega)
        refine ⟨by rw [h1], by rw [h2], by rw [h3]⟩
      · rw [walkGo_cons_skip blank g wlen x r a st hx (by omega) hc,
          firstAt_cons_miss blank g x r a _ hx hc,
          firstAt_cons_miss blank (g + wlen) x r a _ hx (by omega),
          firstAt_cons_miss blank (g + wlen + 1) x r a _ hx (by omega)]
        obtain ⟨h1, h2, h3⟩ := ih (a + 1)
          { st with localCounter := st.localCounter + 1 } hf hl (by simp; omega)
        exact ⟨h1, h2, h3⟩

/-- Reaching a later non-blank count implies reaching an earlier one. -/
lemma firstAt_mono (blank : ℤ) :
    ∀ (s : List ℤ) (a cnt t t' : ℕ), cnt ≤ t → t ≤ t' →
      (firstAt blank t' s a cnt).isSome → (firstAt blank t s a cnt).isSome := by
  intro s
  induction s with
  | nil =>
    intro a cnt t t' h1 h2 h3
    exact h3
  | cons x r ih =>
    intro a cnt t t' h1 h2 h3
    rw [firstAt] at h3 ⊢
    by_cases hx : x ≠ blank
    · rw [if_pos hx] at h3 ⊢
      by_cases hc : cnt = t
      · rw [if_pos hc]
        rfl
      · rw [if_neg hc]
        rw [if_neg (by omega : ¬cnt = t')] at h3
        exact ih (a + 1) (cnt + 1) t t' (by omega) h2 h3
    · rw [if_neg hx] at h3 ⊢
      exact ih (a + 1) cnt t t' h1 h2 h3

/-- Full characterization of one word's walk: the start column is 4 times
the index of the `(g+1)`-th non-blank frame (0 when absent), and the end
column is 4 times the index of the `(g+wlen+1)`-th non-blank frame when a
further non-blank frame follows it, and `4 * aligned.length` otherwise. -/
lemma wordWalk_chr (blank : ℤ) (g wlen : ℕ) (hw : 0 < wlen) (aligned : List ℤ) :
    (wordWalk blank g wlen aligned).hpos =
      (match firstAt blank g aligned 0 0 with
       | some b => 4 * (b : ℤ)
       | none => 0) ∧
    (wordWalk blank g wlen aligned).hpos + (wordWalk blank g wlen aligned).width =
      (match firstAt blank (g + wlen) aligned 0 0,
             firstAt blank (g + wlen + 1) aligned 0 0 with
       | some c, some _ => 4 * (c : ℤ)
       | _, _ => 4 * (aligned.length : ℤ)) := by
  obtain ⟨h1, h2, h3⟩ := walkGo_seek blank g wlen hw aligned 0
    { localCounter := 0, hpos := 0, width := 0, endOfSpace := 0, final := false, last := true }
    rfl rfl (Nat.zero_le g)
  simp only at h1 h2 h3
  rw [wordWalk]
  rcases hF : firstAt blank (g + wlen + 1) aligned 0 0 with _ | d
  · rw [hF] at h3
    rw [if_pos (by rw [h3]; rfl)]
    dsimp only
    refine ⟨h1, ?_⟩
    rw [h1]
    rcases hC : firstAt blank (g + wlen) aligned 0 0 with _ | c <;> dsimp only <;> ring
  · rw [hF] at h3
    rw [if_neg (by rw [h3]; exact Bool.false_ne_true)]
    refine ⟨h1, ?_⟩
    obtain ⟨c, hC⟩ : ∃ c, firstAt blank (g + wlen) aligned 0 0 = some c := by
      have hm := firstAt_mono blank aligned 0 0 (g + wlen) (g + wlen + 1)
        (Nat.zero_le _) (by omega) (by rw [hF]; rfl)
      cases hq : firstAt blank (g + wlen) aligned 0 0 with
      | none => rw [hq] at hm; exact absurd hm (by decide)
      | some c => exact ⟨c, rfl⟩
    simp only [hC] at h2 ⊢
    rw [h1, h2]
    ring

/-- C1 counterexample: for alphabet `{h:0, i:1}`, blank index 2, word "hi"
(length 2, no letters consumed by prior words) and narrowed path
`[0,2,2,1,2,2,2,2]`, the walk does NOT give the word columns `[0,12)`:
completion is only detected at a non-blank frame strictly after the word's
last letter, which never arrives here, so the end column is the default
`4 * 8 = 32`, not `12`. -/
theorem word_hi_not_twelve :
    ¬((wordWalk 2 0 2 [0, 2, 2, 1, 2, 2, 2, 2]).hpos = 0 ∧
      (wordWalk 2 0 2 [0, 2, 2, 1, 2, 2, 2, 2]).hpos +
        (wordWalk 2 0 2 [0, 2, 2, 1, 2, 2, 2, 2]).width = 12) := by
  decide

/-- C1 (amended): for the line with alphabet `{h:0, i:1}`, blank index 2,
transcription "hi" and narrowed path `[0,2,2,1,2,2,2,2]`, the word starts at
column 0 and its end column is the default `4 * 8 = 32` (columns `[0,32)`
before grid scaling), because the walk's completion test fires only at a
non-blank frame at which the count of non-blank frames seen *strictly
before* it minus the letters consumed by prior words equals the word's
length; in general the end column is 4 times the index of that frame
provided a further non-blank frame follows it (triggering the `break`),
and `4 * frames` otherwise. -/
theorem word_end_columns :
    ((wordWalk 2 0 2 [0, 2, 2, 1, 2, 2, 2, 2]).hpos = 0 ∧
      (wordWalk 2 0 2 [0, 2, 2, 1, 2, 2, 2, 2]).hpos +
        (wordWalk 2 0 2 [0, 2, 2, 1, 2, 2, 2, 2]).width = 32) ∧
    ∀ (aligned : List ℤ) (blank : ℤ) (g wlen : ℕ), 0 < wlen →
      (wordWalk blank g wlen aligned).hpos =
        (match firstAt blank g aligned 0 0 with
         | some b => 4 * (b : ℤ)
         | none => 0) ∧
      (wordWalk blank g wlen aligned).hpos + (wordWalk blank g wlen aligned).width =
        (match firstAt blank (g + wlen) aligned 0 0,
               firstAt blank (g + wlen + 1) aligned 0 0 with
         | some c, some _ => 4 * (c : ℤ)
         | _, _ => 4 * (aligned.length : ℤ)) :=
  ⟨by decide, fun aligned blank g wlen hw => wordWalk_chr blank g wlen hw aligned⟩

/-- Witness for C1's amended theorem at the claim's concrete input. -/
theorem word_end_columns_witness :
    (wordWalk 2 0 2 [0, 2, 2, 1, 2, 2, 2, 2]).hpos +
      (wordWalk 2 0 2 [0, 2, 2, 1, 2, 2, 2, 2]).width = 32 := by
  have h := (word_end_columns.2 [0, 2, 2, 1, 2, 2, 2, 2] 2 0 2 (by decide)).2
  exact h.trans (by decide)

/-! ## Frame-to-pixel projection (layout.py lines 314-334)

`line_coords` is the crop coordinate grid, a `rows × cols` array of pixel
`(x, y)` pairs; a word's or gap's box is the min/max of the coordinates in a
slice of grid columns.  `np.max` and `np.min` raise `ValueError` on an array
with zero elements. -/

/-- Python `int()` on a float: truncation toward zero. -/
def pyInt (q : ℚ) : ℤ := if 0 ≤ q then ⌊q⌋ else ⌈q⌉

/-- Python list/array slicing `l[a:b]` with negative-index wraparound and
clamping. -/
def pySlice {α : Type} (l : List α) (a b : ℤ) : List α :=
  let n : ℤ := l.length
  let s := if a < 0 then max 0 (n + a) else min a n
  let e := if b < 0 then max 0 (n + b) else min b n
  (l.take e.toNat).drop s.toNat

/-- `np.max`: raises `ValueError` on an empty array. -/
def npMax (l : List ℚ) : Except PyError ℚ :=
  match l with
  | [] => .error .valueError
  | x :: r => .ok (r.foldl max x)

/-- `np.min`: raises `ValueError` on an empty array. -/
def npMin (l : List ℚ) : Except PyError ℚ :=
  match l with
  | [] => .error .valueError
  | x :: r => .ok (r.foldl min x)

/-- The box attributes written for a word's `String` element. -/
structure AltoBox where
  height : ℤ
  width : ℤ
  vpos : ℤ
  hpos : ℤ
  deriving DecidableEq, Repr

/-- The x coordinates of grid columns `[c0, c1)` over all grid rows:
`line_coords[:, c0:c1, 0]` flattened. -/
def sliceX (coords : List (List (ℚ × ℚ))) (c0 c1 : ℤ) : List ℚ :=
  (coords.map (fun row => (pySlice row c0 c1).map Prod.fst)).flatten

/-- The y coordinates of grid columns `[c0, c1)` over all grid rows:
`line_coords[:, c0:c1, 1]` flattened. -/
def sliceY (coords : List (List (ℚ × ℚ))) (c0 c1 : ℤ) : List ℚ :=
  (coords.map (fun row => (pySlice row c0 c1).map Prod.snd)).flatten

/-- Lines 320-326: the `String` box from grid columns `[c0, c1)`, attribute
computations in source order (`HEIGHT`, `WIDTH`, `VPOS`, `HPOS`). -/
def projectString (coords : List (List (ℚ × ℚ))) (c0 c1 : ℤ) : Except PyError AltoBox := do
  let maxY ← npMax (sliceY coords c0 c1)
  let minY ← npMin (sliceY coords c0 c1)
  let maxX ← npMax (sliceX coords c0 c1)
  let minX ← npMin (sliceX coords c0 c1)
  .ok { height := pyInt (maxY - minY), width := pyInt (maxX - minX),
        vpos := pyInt minY, hpos := pyInt minX }

/-- Lines 329-334: the `SP` (inter-word gap) attributes `WIDTH`, `VPOS`,
`HPOS` (no `HEIGHT` is written for a gap). -/
def projectSpace (coords : List (List (ℚ × ℚ))) (c0 c1 : ℤ) :
    Except PyError (ℤ × ℤ × ℤ) := do
  let maxX ← npMax (sliceX coords c0 c1)
  let minX ← npMin (sliceX coords c0 c1)
  let minY ← npMin (sliceY coords c0 c1)
  .ok (pyInt (maxX - minX), pyInt minY, pyInt minX)

/-- C4 counterexample: an empty grid column range does crash the projection:
on a 1-row, 2-column grid the empty column range `[1, 1)` makes `np.max`
raise `ValueError`; no zero-area box is produced. -/
theorem project_empty_range_crashes :
    projectString [[((0 : ℚ), (0 : ℚ)), ((1 : ℚ), (1 : ℚ))]] 1 1 =
      Except.error PyError.valueError := by
  rfl

/-- C4 (amended): an empty grid column range (no sampled coordinates) makes
the word and gap projections raise `ValueError` (from `np.max`/`np.min` over
an empty array) instead of yielding a zero-area box. -/
theorem project_empty_range_errors (coords : List (List (ℚ × ℚ))) (c0 c1 : ℤ)
    (hY : sliceY coords c0 c1 = []) (hX : sliceX coords c0 c1 = []) :
    projectString coords c0 c1 = Except.error PyError.valueError ∧
    projectSpace coords c0 c1 = Except.error PyError.valueError := by
  rw [projectString, projectSpace, hY, hX]
  exact ⟨rfl, rfl⟩

/-- Witness for C4's amended theorem: a 2-row grid with the degenerate
column range `[2, 2)`. -/
theorem project_empty_range_errors_witness :
    projectString [[((0 : ℚ), (0 : ℚ))], [((1 : ℚ), (1 : ℚ))]] 2 2 =
        Except.error PyError.valueError ∧
      projectSpace [[((0 : ℚ), (0 : ℚ))], [((1 : ℚ), (1 : ℚ))]] 2 2 =
        Except.error PyError.valueError :=
  project_empty_range_errors [[((0 : ℚ), (0 : ℚ))], [((1 : ℚ), (1 : ℚ))]] 2 2
    (by decide) (by decide)

/-! ## The entity model and the per-line ALTO export (layout.py 21-39, 255-334) -/

/-- The `TextLine` entity (layout.py lines 21-30); `crop` is never touched by
the code under verification and is omitted. -/
structure TextLine where
  id : Option String := none
  baseline : Option (List (ℚ × ℚ)) := none
  polygon : Option (List (ℚ × ℚ)) := none
  heights : Option (List ℚ) := none
  transcription : Option String := none
  logits : Option (List (List ℚ)) := none
  characters : Option (List Char) := none
  deriving DecidableEq, Repr

/-- `TextLine.get_dense_logits` (lines 32-35): `self.logits.toarray()` raises
`AttributeError` when `logits` is `None`; structural zeros become
`zero_logit_value`. -/
def TextLine.get_dense_logits (line : TextLine) (zeroLogitValue : ℚ := -80) :
    Except PyError (List (List ℚ)) :=
  match line.logits with
  | none => .error .attributeError
  | some m => .ok (m.map (fun row => row.map (fun v => if v = 0 then zeroLogitValue else v)))

/-- Python truthiness of an optional string: `None` and `''` are falsy. -/
def pyTruthyStr : Option String → Bool
  | none => false
  | some t => t != ""

/-- Python `str.split()` with no argument: split on whitespace runs,
dropping empty pieces. -/
def pySplit (s : String) : List String :=
  (s.split (fun c => c.isWhitespace)).filter (fun w => w ≠ "")

/-- Column `k` of `np.array(pts)`: raises `IndexError` for `None` (0-d object
array) and for an empty list (1-d empty array has no second axis). -/
def colOf (proj : ℚ × ℚ → ℚ) : Option (List (ℚ × ℚ)) → Except PyError (List ℚ)
  | none => .error .indexError
  | some [] => .error .indexError
  | some l => .ok (l.map proj)

/-- `np.min` of a non-empty list, totalized with a default that is never
reached on the paths that use it (its callers error out on empty input). -/
def listMin (l : List ℚ) : ℚ :=
  match l with
  | [] => 0
  | x :: r => r.foldl min x

/-- `np.max` of a non-empty list, totalized like `listMin`. -/
def listMax (l : List ℚ) : ℚ :=
  match l with
  | [] => 0
  | x :: r => r.foldl max x

/-- `char_to_num = dict(zip(line.characters, chars))` lookup (lines 271-276):
a duplicated character keeps its last index; a missing character raises
`KeyError`. -/
def charToNum (cs : List Char) (c : Char) : Except PyError ℕ :=
  match (cs.enum.filter (fun p => p.2 = c)).getLast? with
  | none => .error .keyError
  | some p => .ok p.1

/-- The `for item in (line.transcription): label.append(char_to_num[item])`
loop of lines 274-276. -/
def buildLabel (cs : List Char) : List Char → Except PyError (List ℕ)
  | [] => .ok []
  | c :: r => do
    let n ← charToNum cs c
    let rest ← buildLabel cs r
    .ok (n :: rest)

/-- One emitted word (`String` element) or gap (`SP` element, which gets no
`HEIGHT` attribute) of a `TextLine` element. -/
inductive AltoWordItem where
  | string (content : String) (box : AltoBox) : AltoWordItem
  | sp (width vpos hpos : ℤ) : AltoWordItem
  deriving DecidableEq, Repr

/-- The attributes of one emitted `TextLine` element: `BASELINE` is an int
(line 259), the box attributes are the raw floats of lines 262-269. -/
structure AltoLineOut where
  baseline : ℤ
  vpos : ℚ
  hpos : ℚ
  height : ℚ
  width : ℚ
  items : List AltoWordItem
  deriving DecidableEq, Repr

/-- The `for w, word in enumerate(line.transcription.split())` loop of lines
286-334: walk one word, emit its `String` box, and for every word but the
last emit the following `SP` box; `global_letter_counter` advances only when
the walk `break`s (line 301). -/
def altoWordsGo (lenChars : ℤ) (aligned : List ℤ) (coords : List (List (ℚ × ℚ)))
    (lm : ℚ) (total : ℕ) :
    List String → ℕ → ℕ → Except PyError (List AltoWordItem)
  | [], _, _ => .ok []
  | word :: rest, w, globalCounter => do
    let st := wordWalk lenChars globalCounter word.length aligned
    let globalCounter' := if st.last then globalCounter else st.localCounter
    let hpos := st.hpos - 1
    let c0 := pyInt (hpos * lm)
    let c1 := c0 + pyInt (st.width * lm)
    let box ← projectString coords c0 c1
    if w ≠ total - 1 then
      let s0 := pyInt ((hpos + st.width) * lm)
      let s1 := s0 + pyInt ((st.endOfSpace - (hpos + st.width)) * lm)
      let sp ← projectSpace coords s0 s1
      let tail ← altoWordsGo lenChars aligned coords lm total rest (w + 1) globalCounter'
      .ok (.string word box :: .sp sp.1 sp.2.1 sp.2.2 :: tail)
    else
      let tail ← altoWordsGo lenChars aligned coords lm total rest (w + 1) globalCounter'
      .ok (.string word box :: tail)

/-- Lines 255-334 for a single line of a block: skip the line when its
transcription is `None` or empty (lines 256-257), otherwise emit a
`TextLine` element.  The external collaborators are parameters: `fa` models
`force_align(-np.log(softmax(dense, axis=1)), label, len(chars))` — softmax
and forced alignment live outside this file — and `crop` models
`EngineLineCropper(poly=2).get_crop_inputs(line.baseline, line.heights, 16)`. -/
def altoTextLine (fa : List (List ℚ) → List ℕ → ℕ → List ℤ)
    (crop : List (ℚ × ℚ) → Option (List ℚ) → ℕ → List (List (ℚ × ℚ)))
    (line : TextLine) : Except PyError (Option AltoLineOut) :=
  if pyTruthyStr line.transcription then do
    let t := line.transcription.getD ""
    let bl ← match line.baseline with
      | none => .error PyError.indexError
      | some bl => .ok bl
    let ys ← colOf Prod.snd (some bl)
    let baselineAvg : ℤ := pyInt (ys.foldl (· + ·) 0 / (ys.length : ℚ))
    let pys ← colOf Prod.snd line.polygon
    let pxs ← colOf Prod.fst line.polygon
    let cs ← match line.characters with
      | none => .error PyError.typeError
      | some cs => .ok cs
    let label ← buildLabel cs t.toList
    let dense ← line.get_dense_logits
    let aligned := narrow_label (fa dense label cs.length) (cs.length : ℤ)
    let coords := crop bl line.heights 16
    let lm ← match coords with
      | [] => .error PyError.indexError
      | row :: _ =>
        if aligned.length = 0 then .error PyError.zeroDivisionError
        else .ok ((row.length : ℚ) / (((aligned.length * 4 : ℕ) : ℚ)))
    let items ← altoWordsGo (cs.length : ℤ) aligned coords lm (pySplit t).length
      (pySplit t) 0 0
    .ok (some { baseline := baselineAvg, vpos := listMin pys, hpos := listMin pxs,
                height := listMax pys - listMin pys, width := listMax pxs - listMin pxs,
                items := items })
  else .ok none

/-- C10: a line whose transcription is `None` or the empty string is
silently skipped by the ALTO export — no `TextLine` element (and hence no
`String`/`SP` geometry) is emitted for it, even though the model
distinguishes the two. -/
theorem altoTextLine_skips_falsy
    (fa : List (List ℚ) → List ℕ → ℕ → List ℤ)
    (crop : List (ℚ × ℚ) → Option (List ℚ) → ℕ → List (List (ℚ × ℚ)))
    (line : TextLine)
    (h : line.transcription = none ∨ line.transcription = some "") :
    altoTextLine fa crop line = Except.ok none := by
  rcases h with h | h <;> rw [altoTextLine, h] <;> rfl

/-- Witness for C10 on concrete lines, one with an absent and one with an
empty transcription. -/
theorem altoTextLine_skips_falsy_witness :
    altoTextLine (fun _ _ _ => []) (fun _ _ _ => []) { transcription := none } =
        Except.ok none ∧
      altoTextLine (fun _ _ _ => []) (fun _ _ _ => []) { transcription := some "" } =
        Except.ok none :=
  ⟨altoTextLine_skips_falsy _ _ _ (Or.inl rfl),
   altoTextLine_skips_falsy _ _ _ (Or.inr rfl)⟩

/-- A line with a transcription and everything else attached except logits,
used to exercise the missing-prerequisite path. -/
def lineNoLogits : TextLine :=
  { id := some "l1", baseline := some [(0, 0), (10, 0)],
    polygon := some [(0, -2), (10, -2), (10, 2), (0, 2)],
    heights := some [2, 2], transcription := some "hi",
    logits := none, characters := some ['h', 'i'] }

/-- C3 counterexample: exporting a line with a transcription but no logits
fails with a plain `AttributeError` (from `None.toarray()`), not with any
explicit `MissingPrerequisite` error — no such error class exists in the
code. -/
theorem alto_no_logits_not_missing_prereq :
    altoTextLine (fun _ _ _ => []) (fun _ _ _ => []) lineNoLogits =
        Except.error PyError.attributeError ∧
      altoTextLine (fun _ _ _ => []) (fun _ _ _ => []) lineNoLogits ≠
        Except.error PyError.missingPrerequisite := by
  exact ⟨rfl, by decide⟩

/-- C3 (amended): word-geometry export for a line that has a transcription
but lacks baseline, alphabet, or logits fails — with the incidental Python
exception of the first failing access (`IndexError` from
`np.array(None)[:, 1]`, `TypeError` from `len(None)`, `AttributeError` from
`None.toarray()` respectively), not with an explicit `MissingPrerequisite`
error — and, the export being a pure read of the line, the entity model is
left unmodified. -/
theorem altoTextLine_missing_prereq_raises :
    (∀ (fa : List (List ℚ) → List ℕ → ℕ → List ℤ)
      (crop : List (ℚ × ℚ) → Option (List ℚ) → ℕ → List (List (ℚ × ℚ)))
      (line : TextLine), pyTruthyStr line.transcription = true →
      line.baseline = none →
      altoTextLine fa crop line = Except.error PyError.indexError) ∧
    (∀ (fa : List (List ℚ) → List ℕ → ℕ → List ℤ)
      (crop : List (ℚ × ℚ) → Option (List ℚ) → ℕ → List (List (ℚ × ℚ)))
      (line : TextLine) (bl pg : List (ℚ × ℚ)),
      pyTruthyStr line.transcription = true →
      line.baseline = some bl → bl ≠ [] →
      line.polygon = some pg → pg ≠ [] →
      line.characters = none →
      altoTextLine fa crop line = Except.error PyError.typeError) ∧
    (∀ (fa : List (List ℚ) → List ℕ → ℕ → List ℤ)
      (crop : List (ℚ × ℚ) → Option (List ℚ) → ℕ → List (List (ℚ × ℚ)))
      (line : TextLine) (bl pg : List (ℚ × ℚ)) (cs : List Char) (lab : List ℕ),
      pyTruthyStr line.transcription = true →
      line.baseline = some bl → bl ≠ [] →
      line.polygon = some pg → pg ≠ [] →
      line.characters = some cs →
      buildLabel cs (line.transcription.getD "").toList = Except.ok lab →
      line.logits = none →
      altoTextLine fa crop line = Except.error PyError.attributeError) := by
  refine ⟨?_, ?_, ?_⟩
  · intro fa crop line ht hb
    rw [altoTextLine, if_pos ht, hb]
    rfl
  · intro fa crop line bl pg ht hb hbne hp hpne hc
    obtain ⟨b, bs, rfl⟩ := List.exists_cons_of_ne_nil hbne
    obtain ⟨p, ps, rfl⟩ := List.exists_cons_of_ne_nil hpne
    rw [altoTextLine, if_pos ht, hb, hp, hc]
    rfl
  · intro fa crop line bl pg cs lab ht hb hbne hp hpne hc hlab hlog
    obtain ⟨b, bs, rfl⟩ := List.exists_cons_of_ne_nil hbne
    obtain ⟨p, ps, rfl⟩ := List.exists_cons_of_ne_nil hpne
    rw [altoTextLine, if_pos ht, hb, hp, hc]
    change Except.bind (buildLabel cs (line.transcription.getD "").toList) _ =
      Except.error PyError.attributeError
    rw [hlab]
    change Except.bind line.get_dense_logits _ = Except.error PyError.attributeError
    have hd : line.get_dense_logits = Except.error PyError.attributeError := by
      rw [TextLine.get_dense_logits, hlog]
    rw [hd]
    rfl

/-- Witness for C3's amended theorem: the three deficient variants of a
concrete line each raise the corresponding incidental exception. -/
theorem altoTextLine_missing_prereq_raises_witness :
    altoTextLine (fun _ _ _ => []) (fun _ _ _ => [])
        { lineNoLogits with baseline := none } = Except.error PyError.indexError ∧
      altoTextLine (fun _ _ _ => []) (fun _ _ _ => [])
        { lineNoLogits with characters := none } = Except.error PyError.typeError ∧
      altoTextLine (fun _ _ _ => []) (fun _ _ _ => []) lineNoLogits =
        Except.error PyError.attributeError :=
  ⟨altoTextLine_missing_prereq_raises.1 _ _ _ rfl rfl,
   altoTextLine_missing_prereq_raises.2.1 _ _ _ [(0, 0), (10, 0)]
     [(0, -2), (10, -2), (10, 2), (0, 2)] rfl rfl (by decide) rfl (by decide) rfl,
   altoTextLine_missing_prereq_raises.2.2 _ _ _ [(0, 0), (10, 0)]
     [(0, -2), (10, -2), (10, 2), (0, 2)] ['h', 'i'] [0, 1] rfl rfl (by decide) rfl
     (by decide) rfl (by decide) rfl⟩

/-! ## Regions, pages, and the logits snapshot (layout.py 42-47, 87-93, 412-448) -/

/-- The `RegionLayout` entity (lines 42-47). -/
structure RegionLayout where
  id : String
  polygon : List (ℚ × ℚ)
  transcription : Option String := none
  lines : List TextLine := []
  deriving DecidableEq, Repr

/-- The `PageLayout` entity (lines 87-93); `page_size` is `(height, width)`. -/
structure PageLayout where
  id : Option String := none
  page_size : ℤ × ℤ := (0, 0)
  regions : List RegionLayout := []
  deriving DecidableEq, Repr

/-- The pickled logits snapshot: the id-keyed sparse matrices, plus the
reserved `line_characters` key (absent in legacy snapshots) holding an
id-keyed alphabet mapping.  A line whose id is literally `line_characters`
is not representable here; the claims do not touch that corner. -/
structure LogitsDict where
  logits : List (String × List (List ℚ))
  lineCharacters : Option (List (String × List Char))
  deriving DecidableEq, Repr

/-- Python dict lookup on an association list (keys unique). -/
def lookupA {α : Type} (l : List (String × α)) (k : String) : Option α :=
  (l.find? (fun p => p.1 = k)).map (fun p => p.2)

/-- Lines 438-441: the characters mapping — the stored `line_characters`
dict when present (missing ids raise `KeyError`), otherwise
`dict([(k, None) for k in logits_dict])`, which yields `None` for every id
that passed the membership check. -/
def charactersFn (snap : LogitsDict) : String → Except PyError (Option (List Char)) :=
  match snap.lineCharacters with
  | some chs => fun k =>
      match lookupA chs k with
      | none => .error .keyError
      | some cs => .ok (some cs)
  | none => fun _ => .ok none

/-- Lines 445-448 for one line: raise `Exception('Missing line id ...')` when
the snapshot has no entry for the line's id (a `None` id is never a dict
key), otherwise attach the logits and the characters entry. -/
def loadLine (snap : LogitsDict) (line : TextLine) : Except PyError TextLine :=
  match line.id with
  | none => .error (.missingLineId "None")
  | some key =>
    match lookupA snap.logits key with
    | none => .error (.missingLineId key)
    | some lg => do
      let cs ← charactersFn snap key
      .ok { line with logits := some lg, characters := cs }

/-- The `for line in region.lines` loop of lines 444-448. -/
def loadLines (snap : LogitsDict) : List TextLine → Except PyError (List TextLine)
  | [] => .ok []
  | l :: rest => do
    let l' ← loadLine snap l
    let rest' ← loadLines snap rest
    .ok (l' :: rest')

/-- The `for region in self.regions` loop of lines 443-448. -/
def loadRegions (snap : LogitsDict) : List RegionLayout → Except PyError (List RegionLayout)
  | [] => .ok []
  | r :: rest => do
    let ls ← loadLines snap r.lines
    let rest' ← loadRegions snap rest
    .ok ({ r with lines := ls } :: rest')

/-- `PageLayout.load_logits` (lines 431-448), with the already-unpickled
snapshot as input (file I/O is a boundary concern). -/
def load_logits (page : PageLayout) (snap : LogitsDict) : Except PyError PageLayout := do
  let rs ← loadRegions snap page.regions
  .ok { page with regions := rs }

/-- A line has no matching key in the snapshot. -/
def keyMissing (snap : LogitsDict) (line : TextLine) : Prop :=
  ∀ k, line.id = some k → lookupA snap.logits k = none

/-- In a snapshot with a `line_characters` mapping, every logits key has a
characters entry (true of every snapshot written by `save_logits`). -/
def charsOk (snap : LogitsDict) : Prop :=
  match snap.lineCharacters with
  | none => True
  | some chs => ∀ p ∈ snap.logits, ∃ q ∈ chs, q.1 = p.1

lemma lookupA_cons {α : Type} (p : String × α) (l : List (String × α)) (k : String) :
    lookupA (p :: l) k = if p.1 = k then some p.2 else lookupA l k := by
  rw [lookupA, List.find?]
  by_cases hp : p.1 = k <;> simp [hp, lookupA]

lemma lookupA_isSome_of_mem {α : Type} (l : List (String × α)) (q : String × α)
    (hq : q ∈ l) : (lookupA l q.1).isSome := by
  induction l with
  | nil => cases hq
  | cons p rest ih =>
    rw [lookupA_cons]
    by_cases hp : p.1 = q.1
    · simp [hp]
    · rcases List.mem_cons.mp hq with h | h
      · exact absurd (h ▸ rfl) hp
      · simpa [hp] using ih h

lemma lookupA_some_mem {α : Type} (l : List (String × α)) (k : String) (v : α)
    (h : lookupA l k = some v) : (k, v) ∈ l := by
  induction l with
  | nil => simp [lookupA] at h
  | cons p rest ih =>
    rw [lookupA_cons] at h
    by_cases hp : p.1 = k
    · rw [if_pos hp] at h
      have hv : p.2 = v := by injection h
      have hpq : p = (k, v) := by
        rcases p with ⟨pk, pv⟩
        simp only at hp hv
        rw [hp, hv]
      exact List.mem_cons.mpr (Or.inl hpq.symm)
    · rw [if_neg hp] at h
      exact List.mem_cons.mpr (Or.inr (ih h))

lemma loadLine_some (snap : LogitsDict) (line : TextLine) (k : String)
    (hid : line.id = some k) :
    loadLine snap line =
      (match lookupA snap.logits k with
       | none => .error (.missingLineId k)
       | some lg => do
           let cs ← charactersFn snap k
           .ok { line with logits := some lg, characters := cs }) := by
  rw [loadLine, hid]

lemma loadLine_ok (snap : LogitsDict) (hcov : charsOk snap) (line : TextLine)
    (h : ¬keyMissing snap line) :
    ∃ l', loadLine snap line = .ok l' ∧
      (snap.lineCharacters = none → l'.characters = none) := by
  rw [keyMissing] at h
  push_neg at h
  obtain ⟨k, hid, hlg⟩ := h
  rcases hsome : lookupA snap.logits k with _ | lg
  · exact absurd hsome hlg
  · rcases hch : snap.lineCharacters with _ | chs
    · have hcf : charactersFn snap k = .ok none := by
        rw [charactersFn, hch]
      refine ⟨{ line with logits := some lg, characters := none }, ?_, fun _ => rfl⟩
      rw [loadLine_some snap line k hid, hsome]
      show Except.bind (charactersFn snap k) _ = _
      rw [hcf]
      rfl
    · have hq : ∃ q ∈ chs, q.1 = k := by
        have hmem : (k, lg) ∈ snap.logits := lookupA_some_mem snap.logits k lg hsome
        have hco := hcov
        rw [charsOk, hch] at hco
        exact hco (k, lg) hmem
      obtain ⟨q, hqm, hqk⟩ := hq
      have hs : (lookupA chs k).isSome := by
        have := lookupA_isSome_of_mem chs q hqm
        rwa [hqk] at this
      rcases hcs : lookupA chs k with _ | cs
      · rw [hcs] at hs
        exact absurd hs (by decide)
      · have hcf : charactersFn snap k = .ok (some cs) := by
          rw [charactersFn, hch]
          show (match lookupA chs k with
            | none => Except.error PyError.keyError
            | some cs => Except.ok (some cs)) = Except.ok (some cs)
          rw [hcs]
        refine ⟨{ line with logits := some lg, characters := some cs }, ?_,
          fun hno => Option.noConfusion hno⟩
        rw [loadLine_some snap line k hid, hsome]
        show Except.bind (charactersFn snap k) _ = _
        rw [hcf]
        rfl

lemma loadLine_missing (snap : LogitsDict) (line : TextLine)
    (h : keyMissing snap line) :
    ∃ id, loadLine snap line = .error (.missingLineId id) := by
  rcases hid : line.id with _ | k
  · refine ⟨"None", ?_⟩
    rw [loadLine, hid]
  · refine ⟨k, ?_⟩
    rw [loadLine_some snap line k hid, h k hid]

lemma loadLines_error (snap : LogitsDict) (hcov : charsOk snap) :
    ∀ lines : List TextLine, (∃ l ∈ lines, keyMissing snap l) →
      ∃ id, loadLines snap lines = .error (.missingLineId id) := by
  intro lines
  induction lines with
  | nil =>
    intro h
    obtain ⟨l, hl, _⟩ := h
    cases hl
  | cons l rest ih =>
    intro h
    by_cases hm : keyMissing snap l
    · obtain ⟨id, hid⟩ := loadLine_missing snap l hm
      refine ⟨id, ?_⟩
      rw [loadLines, hid]
      rfl
    · obtain ⟨l', hl', _⟩ := loadLine_ok snap hcov l hm
      have hrest : ∃ x ∈ rest, keyMissing snap x := by
        obtain ⟨x, hx, hxm⟩ := h
        rcases List.mem_cons.mp hx with hx1 | hx2
        · exact absurd (hx1 ▸ hxm) hm
        · exact ⟨x, hx2, hxm⟩
      obtain ⟨id, hid⟩ := ih hrest
      refine ⟨id, ?_⟩
      rw [loadLines, hl', hid]
      rfl

lemma loadLines_ok (snap : LogitsDict) (hcov : charsOk snap) :
    ∀ lines : List TextLine, (∀ l ∈ lines, ¬keyMissing snap l) →
      ∃ ls', loadLines snap lines = .ok ls' ∧
        (snap.lineCharacters = none → ∀ l' ∈ ls', l'.characters = none) := by
  intro lines
  induction lines with
  | nil =>
    intro _
    exact ⟨[], rfl, fun _ l' hl' => absurd hl' (List.not_mem_nil l')⟩
  | cons l rest ih =>
    intro h
    obtain ⟨l', hl', hlc⟩ := loadLine_ok snap hcov l (h l (List.mem_cons_self l rest))
    obtain ⟨ls', hls', hlsc⟩ := ih (fun x hx => h x (List.mem_cons_of_mem l hx))
    refine ⟨l' :: ls', ?_, ?_⟩
    · rw [loadLines, hl', hls']
      rfl
    · intro hno x hx
      rcases List.mem_cons.mp hx with h1 | h2
      · exact h1 ▸ hlc hno
      · exact hlsc hno x h2

lemma loadRegions_error (snap : LogitsDict) (hcov : charsOk snap) :
    ∀ regions : List RegionLayout,
      (∃ r ∈ regions, ∃ l ∈ r.lines, keyMissing snap l) →
      ∃ id, loadRegions snap regions = .error (.missingLineId id) := by
  intro regions
  induction regions with
  | nil =>
    intro h
    obtain ⟨r, hr, _⟩ := h
    cases hr
  | cons r rest ih =>
    intro h
    by_cases hm : ∃ l ∈ r.lines, keyMissing snap l
    · obtain ⟨id, hid⟩ := loadLines_error snap hcov r.lines hm
      refine ⟨id, ?_⟩
      rw [loadRegions, hid]
      rfl
    · push_neg at hm
      obtain ⟨ls', hls', _⟩ := loadLines_ok snap hcov r.lines hm
      have hrest : ∃ x ∈ rest, ∃ l ∈ x.lines, keyMissing snap l := by
        obtain ⟨x, hx, hxl⟩ := h
        rcases List.mem_cons.mp hx with hx1 | hx2
        · exact absurd (hx1 ▸ hxl) (by simpa using hm)
        · exact ⟨x, hx2, hxl⟩
      obtain ⟨id, hid⟩ := ih hrest
      refine ⟨id, ?_⟩
      rw [loadRegions, hls', hid]
      rfl

lemma loadRegions_ok (snap : LogitsDict) (hcov : charsOk snap) :
    ∀ regions : List RegionLayout,
      (∀ r ∈ regions, ∀ l ∈ r.lines, ¬keyMissing snap l) →
      ∃ rs', loadRegions snap regions = .ok rs' ∧
        (snap.lineCharacters = none →
          ∀ r' ∈ rs', ∀ l' ∈ r'.lines, l'.characters = none) := by
  intro regions
  induction regions with
  | nil =>
    intro _
    exact ⟨[], rfl, fun _ r' hr' => absurd hr' (List.not_mem_nil r')⟩
  | cons r rest ih =>
    intro h
    obtain ⟨ls', hls', hlsc⟩ :=
      loadLines_ok snap hcov r.lines (h r (List.mem_cons_self r rest))
    obtain ⟨rs', hrs', hrsc⟩ := ih (fun x hx => h x (List.mem_cons_of_mem r hx))
    refine ⟨{ r with lines := ls' } :: rs', ?_, ?_⟩
    · rw [loadRegions, hls', hrs']
      rfl
    · intro hno x hx l' hl'
      rcases List.mem_cons.mp hx with h1 | h2
      · exact hlsc hno l' (by rw [h1] at hl'; exact hl')
      · exact hrsc hno x h2 l' hl'

/-- C7 (amended): `load_logits` raises the code's explicit
`Missing line id ...` exception when some line of the page has no matching
key in the snapshot, and it tolerates a legacy snapshot lacking the
`line_characters` mapping by substituting an *absent* (`None`) alphabet —
not an empty one — for every line. -/
theorem load_logits_missing_and_legacy :
    (∀ (page : PageLayout) (snap : LogitsDict), charsOk snap →
      (∃ r ∈ page.regions, ∃ l ∈ r.lines, keyMissing snap l) →
      ∃ id, load_logits page snap = Except.error (PyError.missingLineId id)) ∧
    (∀ (page : PageLayout) (snap : LogitsDict), snap.lineCharacters = none →
      (∀ r ∈ page.regions, ∀ l ∈ r.lines, ¬keyMissing snap l) →
      ∃ page', load_logits page snap = Except.ok page' ∧
        ∀ r' ∈ page'.regions, ∀ l' ∈ r'.lines, l'.characters = none) := by
  constructor
  · intro page snap hcov h
    obtain ⟨id, hid⟩ := loadRegions_error snap hcov page.regions h
    refine ⟨id, ?_⟩
    rw [load_logits, hid]
    rfl
  · intro page snap hleg h
    have hcov : charsOk snap := by
      rw [charsOk, hleg]
      trivial
    obtain ⟨rs', hrs', hrsc⟩ := loadRegions_ok snap hcov page.regions h
    refine ⟨{ page with regions := rs' }, ?_, hrsc hleg⟩
    rw [load_logits, hrs']
    rfl

/-- A one-line page used to exercise `load_logits`. -/
def pageOneLine : PageLayout :=
  { id := some "page1", page_size := (100, 200),
    regions := [{ id := "r1", polygon := [(0, 0), (10, 0), (10, 10)],
                  lines := [{ id := some "l1", transcription := some "hi" }] }] }

/-- A legacy snapshot (no `line_characters` key) holding logits for `l1`. -/
def legacySnap : LogitsDict := { logits := [("l1", [[1, 2]])], lineCharacters := none }

/-- C7 counterexample: loading a legacy snapshot leaves each line's alphabet
absent (`None`), not equal to an empty alphabet. -/
theorem load_logits_legacy_not_empty_alphabet :
    load_logits pageOneLine legacySnap =
        Except.ok { pageOneLine with
          regions := [{ id := "r1", polygon := [(0, 0), (10, 0), (10, 10)],
                        lines := [{ id := some "l1", transcription := some "hi",
                                    logits := some [[1, 2]], characters := none }] }] } ∧
      ¬(load_logits pageOneLine legacySnap =
        Except.ok { pageOneLine with
          regions := [{ id := "r1", polygon := [(0, 0), (10, 0), (10, 10)],
                        lines := [{ id := some "l1", transcription := some "hi",
                                    logits := some [[1, 2]],
                                    characters := some [] }] }] }) := by
  exact ⟨rfl, by decide⟩

/-- Witness for C7: the missing-key error on a snapshot lacking `l1`, and
the legacy tolerance on `legacySnap`. -/
theorem load_logits_missing_and_legacy_witness :
    (∃ id, load_logits pageOneLine
        { logits := [("other", [[1]])], lineCharacters := none } =
        Except.error (PyError.missingLineId id)) ∧
    (∃ page', load_logits pageOneLine legacySnap = Except.ok page' ∧
      ∀ r' ∈ page'.regions, ∀ l' ∈ r'.lines, l'.characters = none) := by
  constructor
  · refine load_logits_missing_and_legacy.1 pageOneLine
      { logits := [("other", [[1]])], lineCharacters := none } (by rw [charsOk]; trivial) ?_
    refine ⟨_, List.mem_cons_self _ _, _, List.mem_cons_self _ _, fun k hk => ?_⟩
    have hk' : k = "l1" := (Option.some.inj hk).symm
    rw [hk']
    rfl
  · refine load_logits_missing_and_legacy.2 pageOneLine legacySnap rfl ?_
    intro r hr l hl
    fin_cases hr
    fin_cases hl
    intro hco
    have hl1 := hco "l1" rfl
    simp [legacySnap, lookupA, List.find?] at hl1

/-! ## Character-level string primitives

The document codecs parse and print numbers inside attribute strings.  All
string processing is done over `List Char` with the following executable
primitives, which model the corresponding Python `str` operations. -/

/-- `'{'`, written via its code point to keep brace characters out of
literals. -/
def lbrace : Char := Char.ofNat 123

/-- `'}'`. -/
def rbrace : Char := Char.ofNat 125

/-- Split at every occurrence of `sep`, keeping empty pieces — Python
`s.split(sep)` for a single-character separator. -/
def splitOnChar (sep : Char) : List Char → List (List Char)
  | [] => [[]]
  | c :: r =>
    if c = sep then [] :: splitOnChar sep r
    else
      match splitOnChar sep r with
      | [] => [[c]]
      | p :: ps => (c :: p) :: ps

/-- The maximal runs of characters satisfying `p` — Python `s.split()` for
`p = isWhitespace` (complement) and `re.findall("\\d+", s)` for
`p = isDigit`. -/
def runsOf (p : Char → Bool) : List Char → List Char → List (List Char)
  | [], cur => if cur.isEmpty then [] else [cur.reverse]
  | c :: r, cur =>
    if p c then runsOf p r (c :: cur)
    else if cur.isEmpty then runsOf p r []
    else cur.reverse :: runsOf p r []

/-- Python `sub in s` (substring containment). -/
def containsSub (sub : List Char) : List Char → Bool
  | [] => sub.isEmpty
  | c :: r => if sub.isPrefixOf (c :: r) then true else containsSub sub r

/-- Python `sub in s` on `String`s. -/
def pyIn (sub s : String) : Bool := containsSub sub.data s.data

/-- The numeric value of a digit run (most significant first). -/
def natOfDigits (l : List Char) : ℕ :=
  l.foldl (fun a c => a * 10 + (c.toNat - 48)) 0

/-- The decimal digits of `n`, most significant first; structural recursion
on a fuel bound of at least `n`. -/
def natToCharsGo : ℕ → ℕ → List Char
  | 0, n => [Char.ofNat (48 + n)]
  | fuel + 1, n =>
    if n < 10 then [Char.ofNat (48 + n)]
    else natToCharsGo fuel (n / 10) ++ [Char.ofNat (48 + n % 10)]

/-- The decimal digits of `n`, most significant first. -/
def natToChars (n : ℕ) : List Char := natToCharsGo n n

/-- Python `str(m)` for an int. -/
def intToChars (m : ℤ) : List Char :=
  if m < 0 then '-' :: natToChars m.natAbs else natToChars m.toNat

/-- Python `float(s)` restricted to plain decimal literals (optional sign,
digits, at most one point; no exponent or underscore forms, which the
documents at hand never use).  Anything else raises `ValueError`. -/
def parseFloatQ (s : List Char) : Except PyError ℚ :=
  let cs := (s.dropWhile Char.isWhitespace).reverse.dropWhile Char.isWhitespace |>.reverse
  let sgn : ℚ := if cs.head? = some '-' then -1 else 1
  let cs := if cs.head? = some '-' ∨ cs.head? = some '+' then cs.tail else cs
  match splitOnChar '.' cs with
  | [ip] =>
    if ip ≠ [] ∧ ip.all Char.isDigit then .ok (sgn * natOfDigits ip)
    else .error .valueError
  | [ip, fp] =>
    if (ip ≠ [] ∨ fp ≠ []) ∧ ip.all Char.isDigit ∧ fp.all Char.isDigit then
      .ok (sgn * ((natOfDigits ip : ℚ) + (natOfDigits fp : ℚ) / (10 : ℚ) ^ fp.length))
    else .error .valueError
  | _ => .error .valueError

/-- Python `int(s)`: optional surrounding whitespace, optional sign, digits
only. -/
def parseIntZ (s : List Char) : Except PyError ℤ :=
  let cs := (s.dropWhile Char.isWhitespace).reverse.dropWhile Char.isWhitespace |>.reverse
  let sgn : ℤ := if cs.head? = some '-' then -1 else 1
  let cs := if cs.head? = some '-' ∨ cs.head? = some '+' then cs.tail else cs
  if cs ≠ [] ∧ cs.all Char.isDigit then .ok (sgn * natOfDigits cs)
  else .error .valueError

/-- A JSON number (no exponent forms, which never occur here): optional `-`,
non-empty integer part, optional non-empty fraction. -/
def jsonNum (cs : List Char) : Option ℚ :=
  let sgn : ℚ := if cs.head? = some '-' then -1 else 1
  let cs := if cs.head? = some '-' then cs.tail else cs
  match splitOnChar '.' cs with
  | [ip] => if ip ≠ [] ∧ ip.all Char.isDigit then some (sgn * natOfDigits ip) else none
  | [ip, fp] =>
    if ip ≠ [] ∧ fp ≠ [] ∧ ip.all Char.isDigit ∧ fp.all Char.isDigit then
      some (sgn * ((natOfDigits ip : ℚ) + (natOfDigits fp : ℚ) / (10 : ℚ) ^ fp.length))
    else none
  | _ => none

/-- `mapM` over `Except`, written as a plain recursion. -/
def mapExcept {α β : Type} (f : α → Except PyError β) : List α → Except PyError (List β)
  | [] => .ok []
  | x :: r => do
    let y ← f x
    let ys ← mapExcept f r
    .ok (y :: ys)

/-- `json.loads` restricted to flat lists of numbers without embedded
whitespace, e.g. `[12.5,7.0]`; a malformed document raises
`json.JSONDecodeError`, a `ValueError`. -/
def jsonListOfNums (s : List Char) : Except PyError (List ℚ) :=
  match s with
  | '[' :: rest =>
    if hlast : rest.getLast? = some ']' then
      let inner := rest.dropLast
      if inner.isEmpty then .ok []
      else
        mapExcept
          (fun e => match jsonNum e with
            | some v => Except.ok v
            | none => Except.error PyError.valueError)
          (splitOnChar ',' inner)
    else .error .valueError
  | _ => .error .valueError

/-- Round half to even (Python `round`, and, on our exact-rational model of
floats, the rounding of `f"{h:.1f}"`). -/
def rhe (q : ℚ) : ℤ :=
  let f := q - ⌊q⌋
  if f < 1 / 2 then ⌊q⌋
  else if 1 / 2 < f then ⌊q⌋ + 1
  else if 2 ∣ ⌊q⌋ then ⌊q⌋ else ⌊q⌋ + 1

/-- Python `f"{h:.1f}"`: the value rounded to one decimal, printed with one
fractional digit.  (For a negative value rounding to zero Python prints
`-0.0`; this model prints `0.0`, the same rational.) -/
def fmt1 (q : ℚ) : List Char :=
  let m := rhe (10 * q)
  let a := m.natAbs
  (if m < 0 then ['-'] else []) ++ natToChars (a / 10) ++ '.' :: [Char.ofNat (48 + a % 10)]

/-! ## Height decoding from the line `custom` attribute
(layout.py lines 111-131) -/

/-- Python `str.split()`: maximal non-whitespace runs. -/
def pySplitChars (s : List Char) : List (List Char) :=
  runsOf (fun c => !c.isWhitespace) s []

/-- `re.findall("\\d+", s)` converted to numbers: the maximal digit runs. -/
def findallDigitNums (s : List Char) : List ℕ :=
  (runsOf Char.isDigit s []).map natOfDigits

/-- The legacy height-shape dispatch of lines 121-130: 4 numbers
`[a,b,c,d] -> [a,c]`; 3 numbers `[a,b,c] -> [b, c-a]`; any other count is
taken unchanged. -/
def decodeLegacyHeights (xs : List ℚ) : List ℚ :=
  if xs.length = 4 then [xs.getD 0 0, xs.getD 2 0]
  else if xs.length = 3 then [xs.getD 1 0, xs.getD 2 0 - xs.getD 0 0]
  else xs

/-- Lines 111-131: decode the optional `custom` attribute into `heights`.
`heights_v2` wins over the legacy regex path; in the `heights_v2` branch the
last whitespace-separated word containing `heights_v2` is parsed as
`word.split(":")[1]` via `json.loads` (missing `:` raises `IndexError`). -/
def heightsFromCustom (custom : List Char) : Except PyError (Option (List ℚ)) :=
  if pyIn "heights_v2" ⟨custom⟩ then
    (pySplitChars custom).foldlM
      (fun acc w =>
        if pyIn "heights_v2" ⟨w⟩ then
          match (splitOnChar ':' w).get? 1 with
          | none => .error .indexError
          | some p1 => do
            let v ← jsonListOfNums p1
            .ok (some v)
        else .ok acc)
      none
  else if pyIn "heights" ⟨custom⟩ then
    .ok (some (decodeLegacyHeights ((findallDigitNums custom).map (fun n => (n : ℚ)))))
  else .ok none

/-- C8: legacy height decoding follows the three shape rules, and on the
claim's concrete encodings: `[10,0,10,30]` gives `(10,10)`, `[5,15,25]`
gives `(15,20)`, `[12,18]` gives `(12,18)`. -/
theorem legacy_height_decoding :
    (∀ a b c d : ℚ, decodeLegacyHeights [a, b, c, d] = [a, c]) ∧
    (∀ a b c : ℚ, decodeLegacyHeights [a, b, c] = [b, c - a]) ∧
    (∀ a b : ℚ, decodeLegacyHeights [a, b] = [a, b]) ∧
    heightsFromCustom "heights:[10, 0, 10, 30]".data = .ok (some [10, 10]) ∧
    heightsFromCustom "heights:[5, 15, 25]".data = .ok (some [15, 20]) ∧
    heightsFromCustom "heights:[12, 18]".data = .ok (some [12, 18]) := by
  refine ⟨?_, ?_, ?_, by decide, by decide, by decide⟩
  · intro a b c d
    rfl
  · intro a b c
    rfl
  · intro a b
    rfl

/-! ## XML trees

A parsed `lxml` element: qualified tag (namespaced tags carry the
`\x7buri\x7d` prefix), attributes, child elements, and optional text.
Namespace declarations (`xmlns`) are resolved into the tags and do not
appear among attributes, matching what `lxml` hands back after a
serialize/parse cycle. -/
inductive Xml where
  | mk (tag : String) (attrs : List (String × String)) (children : List Xml)
      (text : Option String) : Xml

def Xml.tag : Xml → String
  | .mk t _ _ _ => t

def Xml.attrs : Xml → List (String × String)
  | .mk _ a _ _ => a

def Xml.children : Xml → List Xml
  | .mk _ _ c _ => c

def Xml.text : Xml → Option String
  | .mk _ _ _ t => t

/-- `elem.get(k)` — `None` when absent. -/
def Xml.getAttr (x : Xml) (k : String) : Option String := lookupA x.attrs k

/-- `elem.attrib[k]` — raises `KeyError` when absent. -/
def Xml.attrib (x : Xml) (k : String) : Except PyError String :=
  match x.getAttr k with
  | none => .error .keyError
  | some v => .ok v

/-- `elem.findall(tag)` for a plain tag path: matching direct children. -/
def Xml.findall (x : Xml) (t : String) : List Xml :=
  x.children.filter (fun c => c.tag == t)

/-- `elem.find(tag)`: the first matching direct child, or `None`. -/
def Xml.findTag (x : Xml) (t : String) : Option Xml :=
  x.children.find? (fun c => c.tag == t)

mutual

/-- `elem.iter(tag)`: all matching elements of the subtree, document
order, the element itself included. -/
def Xml.iterTag (t : String) : Xml → List Xml
  | .mk tag attrs children text =>
    (if tag == t then [Xml.mk tag attrs children text] else []) ++
      Xml.iterTagList t children

/-- `iter` over a list of sibling subtrees. -/
def Xml.iterTagList (t : String) : List Xml → List Xml
  | [] => []
  | x :: xs => Xml.iterTag t x ++ Xml.iterTagList t xs

end

/-- `element_schema` (lines 497-502): extract the `\x7buri\x7d` prefix of the
root tag; a tag with no namespace makes the function return
`'\x7b' + None + '\x7d'`, a `TypeError`. -/
def element_schema (elem : Xml) : Except PyError String :=
  match elem.tag.data with
  | c :: rest =>
    if c = lbrace then .ok ⟨lbrace :: (rest.takeWhile (fun d => d ≠ rbrace)) ++ [rbrace]⟩
    else .error .typeError
  | [] => .error .typeError

/-! ## Dialect A (PAGE) codec (layout.py lines 49-60, 63-84, 95-191) -/

/-- `points_string_to_array` (lines 505-509): split on single spaces, each
token an `x,y` pair (anything else fails unpacking with `ValueError`), each
component `int(round(float(·)))` — parse, then round half to even. -/
def points_string_to_array (coords : String) : Except PyError (List (ℚ × ℚ)) :=
  mapExcept
    (fun t =>
      match splitOnChar ',' t with
      | [x, y] => do
        let fx ← parseFloatQ x
        let fy ← parseFloatQ y
        .ok ((rhe fx : ℚ), (rhe fy : ℚ))
      | _ => .error .valueError)
    (splitOnChar ' ' coords.data)

/-- `get_coords_form_page_xml` (lines 63-72): the `points` attribute when
present, otherwise `Point` child elements with unrounded float coordinates. -/
def get_coords_form_page_xml (ce : Xml) (schema : String) :
    Except PyError (List (ℚ × ℚ)) :=
  match ce.getAttr "points" with
  | some pts => points_string_to_array pts
  | none =>
    mapExcept
      (fun point => do
        let x ← point.attrib "x"
        let y ← point.attrib "y"
        let fx ← parseFloatQ x.data
        let fy ← parseFloatQ y.data
        .ok (fx, fy))
      (ce.findall (schema ++ "Point"))

/-- The `TextEquiv`/`Unicode` reading shared by regions (lines 79-84) and
lines (lines 141-146): absent `TextEquiv` leaves the transcription `None`, a
`TextEquiv` without `Unicode` raises `AttributeError` (`None.text`), an
empty text node reads back as `''`. -/
def parseTextEquiv (el : Xml) (schema : String) : Except PyError (Option String) :=
  match el.findTag (schema ++ "TextEquiv") with
  | none => .ok none
  | some te =>
    match te.findTag (schema ++ "Unicode") with
    | none => .error .attributeError
    | some u => .ok (some (u.text.getD ""))

/-- `get_region_from_page_xml` (lines 75-84); a missing `Coords` child makes
`coords_element.attrib` raise `AttributeError` on `None`. -/
def get_region_from_page_xml (region_element : Xml) (schema : String) :
    Except PyError RegionLayout := do
  let coords ← match region_element.findTag (schema ++ "Coords") with
    | none => .error PyError.attributeError
    | some ce => get_coords_form_page_xml ce schema
  let id ← region_element.attrib "id"
  let tr ← parseTextEquiv region_element schema
  .ok { id := id, polygon := coords, transcription := tr, lines := [] }

/-- One `TextLine` element of `from_pagexml` (lines 109-146): id, then the
`custom` heights, then `Baseline`, `Coords`, `TextEquiv`. -/
def parseTextLineX (schema : String) (line : Xml) : Except PyError TextLine := do
  let id ← line.attrib "id"
  let heights ← match line.getAttr "custom" with
    | none => .ok none
    | some custom => heightsFromCustom custom.data
  let baseline ← match line.findTag (schema ++ "Baseline") with
    | none => .ok none
    | some b => (get_coords_form_page_xml b schema).map some
  let polygon ← match line.findTag (schema ++ "Coords") with
    | none => .ok none
    | some c => (get_coords_form_page_xml c schema).map some
  let tr ← parseTextEquiv line schema
  .ok { id := some id, baseline := baseline, polygon := polygon, heights := heights,
        transcription := tr, logits := none, characters := none }

/-- `PageLayout.from_pagexml` (lines 98-149) on a parsed tree. -/
def from_pagexml (root : Xml) : Except PyError PageLayout := do
  let schema ← element_schema root
  let page ← match root.findall (schema ++ "Page") with
    | [] => .error PyError.indexError
    | p :: _ => .ok p
  let pid ← page.attrib "imageFilename"
  let hstr ← page.attrib "imageHeight"
  let h ← parseIntZ hstr.data
  let wstr ← page.attrib "imageWidth"
  let w ← parseIntZ wstr.data
  let regions ←
    mapExcept
      (fun re => do
        let r ← get_region_from_page_xml re schema
        let lines ← mapExcept (parseTextLineX schema) (re.iterTag (schema ++ "TextLine"))
        .ok { r with lines := lines })
      (root.iterTag (schema ++ "TextRegion"))
  .ok { id := some pid, page_size := (h, w), regions := regions }

/-- The PAGE namespace the writer declares (line 153), as it re-appears in
tags after a serialize/parse cycle. -/
def pageNS : String :=
  "\x7bhttp://schema.primaresearch.org/PAGE/gts/pagecontent/2013-07-15\x7d"

/-- `sep.join(tokens)`. -/
def joinWith (sep : Char) : List (List Char) → List Char
  | [] => []
  | [t] => t
  | t :: ts => t ++ sep :: joinWith sep ts

/-- A `points` attribute: `" ".join(f"\x7bint(x)\x7d,\x7bint(y)\x7d")`. -/
def pointsAttr (poly : List (ℚ × ℚ)) : String :=
  ⟨joinWith ' '
    (poly.map (fun p => intToChars (pyInt p.1) ++ ',' :: intToChars (pyInt p.2)))⟩

/-- Writing text `s` into an element and re-parsing yields no text node for
the empty string. -/
def textNode (s : String) : Option String := if s = "" then none else some s

/-- A `TextEquiv` element holding `Unicode` text. -/
def textEquivXml (s : String) : Xml :=
  .mk (pageNS ++ "TextEquiv") [] [.mk (pageNS ++ "Unicode") [] [] (textNode s)] none

/-- One written `TextLine` element (lines 163-184): `ET.set` with a `None`
id raises `TypeError`; `heights[0]`/`heights[1]` need two entries
(`IndexError` otherwise); the `custom` attribute carries the one-decimal
`heights_v2` encoding; `Coords` is always created, its `points` only for a
present polygon. -/
def lineToXml (line : TextLine) : Except PyError Xml := do
  let id ← match line.id with
    | none => .error PyError.typeError
    | some i => .ok i
  let attrs ← match line.heights with
    | none => .ok [("id", id)]
    | some hs =>
      if hs.length < 2 then .error PyError.indexError
      else
        .ok [("id", id),
          ("custom",
            ⟨"heights_v2:[".data ++ fmt1 (hs.getD 0 0) ++ ',' :: fmt1 (hs.getD 1 0) ++ "]".data⟩)]
  let children :=
    [Xml.mk (pageNS ++ "Coords")
      (match line.polygon with
       | none => []
       | some poly => [("points", pointsAttr poly)]) [] none] ++
    (match line.baseline with
     | none => []
     | some b => [Xml.mk (pageNS ++ "Baseline") [("points", pointsAttr b)] [] none]) ++
    (match line.transcription with
     | none => []
     | some t => [textEquivXml t])
  .ok (Xml.mk (pageNS ++ "TextLine") attrs children none)

/-- `RegionLayout.to_page_xml` (lines 49-60) plus the line loop of
`to_pagexml_string`. -/
def regionToXml (region : RegionLayout) : Except PyError Xml := do
  let lines ← mapExcept lineToXml region.lines
  .ok (Xml.mk (pageNS ++ "TextRegion") [("id", region.id)]
    ([Xml.mk (pageNS ++ "Coords") [("points", pointsAttr region.polygon)] [] none] ++
      (match region.transcription with
       | none => []
       | some t => [textEquivXml t]) ++
      lines) none)

/-- `PageLayout.to_pagexml_string` (lines 151-186), modelled at the level of
the tree its output parses back to: tags carry the declared namespace and
the `xmlns` declaration is not an attribute. -/
def to_pagexml_string (page : PageLayout) : Except PyError Xml := do
  let pid ← match page.id with
    | none => .error PyError.typeError
    | some i => .ok i
  let regions ← mapExcept regionToXml page.regions
  .ok (Xml.mk (pageNS ++ "PcGts") []
    [Xml.mk (pageNS ++ "Page")
      [("imageFilename", pid), ("imageWidth", ⟨intToChars page.page_size.2⟩),
        ("imageHeight", ⟨intToChars page.page_size.1⟩)]
      regions none] none)

/-! ## Dialect B (ALTO) reader (layout.py lines 368-410) -/

/-- The words of a line's `String` children joined by single spaces (lines
399-407); a `String` without `CONTENT` makes `word + None` raise
`TypeError`. -/
def concatContents (els : List Xml) : Except PyError String := do
  let r ← els.foldlM
    (fun (acc : Bool × String) el =>
      match el.getAttr "CONTENT" with
      | none => .error PyError.typeError
      | some c => .ok (false, if acc.1 then acc.2 ++ c else acc.2 ++ " " ++ c))
    (true, "")
  .ok r.2

/-- `int(elem.get(k))`: a missing attribute gives `int(None)`, a
`TypeError`. -/
def Xml.getInt (x : Xml) (k : String) : Except PyError ℤ :=
  match x.getAttr k with
  | none => .error .typeError
  | some v => parseIntZ v.data

/-- `int(elem.attrib[k])`: a missing attribute raises `KeyError`. -/
def Xml.attribInt (x : Xml) (k : String) : Except PyError ℤ := do
  let v ← x.attrib k
  parseIntZ v.data

/-- One `TextLine` of `from_altoxml` (lines 392-408).  Note line 394: the
height pair is stored as `[HEIGHT+VPOS-BASELINE, BASELINE-VPOS]`, i.e.
(descent, ascent). -/
def parseAltoLine (schema : String) (le : Xml) : Except PyError TextLine := do
  let hpos ← le.attribInt "HPOS"
  let base ← le.attribInt "BASELINE"
  let width ← le.attribInt "WIDTH"
  let height ← le.attribInt "HEIGHT"
  let vpos ← le.attribInt "VPOS"
  let word ← concatContents (le.iterTag (schema ++ "String"))
  .ok { id := none,
        baseline := some [((hpos : ℚ), (base : ℚ)), ((hpos + width : ℚ), (base : ℚ))],
        polygon := some [((hpos : ℚ), (vpos : ℚ)), ((hpos + width : ℚ), (vpos : ℚ)),
          ((hpos + width : ℚ), (vpos + height : ℚ)), ((hpos : ℚ), (vpos + height : ℚ))],
        heights := some [((height : ℚ) + (vpos : ℚ) - (base : ℚ)), ((base : ℚ) - (vpos : ℚ))],
        transcription := some word, logits := none, characters := none }

/-- `PageLayout.from_altoxml` (lines 371-410) on a parsed tree. -/
def from_altoxml (root : Xml) : Except PyError PageLayout := do
  let schema ← element_schema root
  let layout ← match root.findall (schema ++ "Layout") with
    | [] => .error PyError.indexError
    | l :: _ => .ok l
  let page ← match layout.findall (schema ++ "Page") with
    | [] => .error PyError.indexError
    | p :: _ => .ok p
  let pidRaw ← page.attrib "ID"
  let hstr ← page.attrib "HEIGHT"
  let h ← parseIntZ hstr.data
  let wstr ← page.attrib "WIDTH"
  let w ← parseIntZ wstr.data
  let printSpace ← match page.findall (schema ++ "PrintSpace") with
    | [] => .error PyError.indexError
    | p :: _ => .ok p
  let regions ←
    mapExcept
      (fun re => do
        let hpos ← re.getInt "HPOS"
        let vpos ← re.getInt "VPOS"
        let width ← re.getInt "WIDTH"
        let height ← re.getInt "HEIGHT"
        let rid ← re.attrib "ID"
        let lines ← mapExcept (parseAltoLine schema) (re.iterTag (schema ++ "TextLine"))
        .ok { id := rid,
              polygon := [((hpos : ℚ), (vpos : ℚ)), ((hpos + width : ℚ), (vpos : ℚ)),
                ((hpos + width : ℚ), (vpos + height : ℚ)), ((hpos : ℚ), (vpos + height : ℚ))],
              transcription := none, lines := lines })
      (printSpace.iterTag (schema ++ "TextBlock"))
  .ok { id := some (pidRaw.drop 3), page_size := (h, w), regions := regions }

/-- `PageLayout.from_altoxml_string` (lines 368-369): it hands the string to
`from_pagexml`, not to `from_altoxml`. -/
def from_altoxml_string (doc : Xml) : Except PyError PageLayout :=
  from_pagexml doc

/-- The ALTO namespace (line 197), as it appears in parsed tags. -/
def altoNS : String := "\x7bhttp://www.loc.gov/standards/alto/ns-v2#\x7d"

/-- A small well-formed Dialect B (ALTO) document: one block, one line with
`VPOS = 10`, `HEIGHT = 30`, `BASELINE = 20`, one word "hi". -/
def altoDoc : Xml :=
  .mk (altoNS ++ "alto") []
    [.mk (altoNS ++ "Description") [] [] none,
     .mk (altoNS ++ "Layout") []
       [.mk (altoNS ++ "Page")
         [("ID", "id_p1"), ("PHYSICAL_IMG_NR", "1"), ("HEIGHT", "100"), ("WIDTH", "200")]
         [.mk (altoNS ++ "TopMargin") [] [] none,
          .mk (altoNS ++ "PrintSpace") []
            [.mk (altoNS ++ "TextBlock")
              [("ID", "r1"), ("HPOS", "0"), ("VPOS", "0"), ("WIDTH", "200"),
               ("HEIGHT", "100")]
              [.mk (altoNS ++ "TextLine")
                [("HPOS", "5"), ("VPOS", "10"), ("WIDTH", "50"), ("HEIGHT", "30"),
                 ("BASELINE", "20")]
                [.mk (altoNS ++ "String")
                  [("CONTENT", "hi"), ("HPOS", "5"), ("VPOS", "10"), ("WIDTH", "20"),
                   ("HEIGHT", "28")] [] none] none] none] none] none] none] none

/-- C2: `from_altoxml` stores the height pair of the line with `VPOS = 10`,
`HEIGHT = 30`, `BASELINE = 20` as `[20, 10]`, i.e. `(descent, ascent)` =
`(VPOS + HEIGHT - BASELINE, BASELINE - VPOS)` — the opposite of the model's
`(ascent, descent)` order, whose value here would be `[10, 20]`. -/
theorem from_altoxml_heights_swapped :
    from_altoxml altoDoc =
        Except.ok
          { id := some "p1", page_size := (100, 200),
            regions := [
              { id := "r1",
                polygon := [(0, 0), (200, 0), (200, 100), (0, 100)],
                transcription := none,
                lines := [
                  { id := none, baseline := some [(5, 20), (55, 20)],
                    polygon := some [(5, 10), (55, 10), (55, 40), (5, 40)],
                    heights := some [20, 10], transcription := some "hi",
                    logits := none, characters := none }] }] } ∧
      (some [(20 : ℚ), 10] : Option (List ℚ)) ≠ some [10, 20] := by
  exact ⟨by decide, by decide⟩

/-- C9: `from_altoxml_string` is the Dialect A (PAGE) parser applied to the
given bytes — it never invokes the Dialect B reader `from_altoxml`, so an
ALTO document passed as a string fails with the PAGE parser's `IndexError`
instead of being parsed as ALTO. -/
theorem from_altoxml_string_delegates :
    (∀ x : Xml, from_altoxml_string x = from_pagexml x) ∧
      from_pagexml altoDoc = Except.error PyError.indexError ∧
      from_altoxml_string altoDoc ≠ from_altoxml altoDoc :=
  ⟨fun _ => rfl, by decide, by decide⟩

/-- A Dialect A (PAGE) document with a structured height encoding
`heights_v2:[12.34,5.0]` whose first component has two decimals. -/
def pageDocTwoDecimals : Xml :=
  .mk (pageNS ++ "PcGts") []
    [.mk (pageNS ++ "Page")
      [("imageFilename", "img.jpg"), ("imageWidth", "200"), ("imageHeight", "100")]
      [.mk (pageNS ++ "TextRegion") [("id", "r1")]
        [.mk (pageNS ++ "Coords") [("points", "0,0 200,0 200,100")] [] none,
         .mk (pageNS ++ "TextLine")
           [("id", "l1"), ("custom", "heights_v2:[12.34,5.0]")]
           [.mk (pageNS ++ "Coords") [("points", "5,10 55,10 55,40")] [] none,
            .mk (pageNS ++ "TextEquiv") []
              [.mk (pageNS ++ "Unicode") [] [] (some "hi")] none] none] none] none] none

/-- The height pair of the first line of the first region. -/
def firstHeights (p : PageLayout) : Option (List ℚ) :=
  ((p.regions.headD { id := "", polygon := [] }).lines.headD {}).heights

/-- C5 counterexample: parsing `pageDocTwoDecimals` and re-serializing does
NOT round-trip the height pair exactly: `12.34` comes back as `12.3`,
because the writer formats heights with one decimal (`f"...:.1f..."`). -/
theorem pagexml_heights_not_exact :
    Except.map firstHeights (from_pagexml pageDocTwoDecimals) =
        Except.ok (some [1234 / 100, 5]) ∧
      Except.map firstHeights
          (Except.bind (Except.bind (from_pagexml pageDocTwoDecimals) to_pagexml_string)
            from_pagexml) = Except.ok (some [123 / 10, 5]) ∧
      (1234 / 100 : ℚ) ≠ 123 / 10 := by
  refine ⟨by decide, by decide, by norm_num⟩

/-! ## Round-trip lemmas for the string primitives -/

lemma splitOnChar_of_not_mem (c : Char) (l : List Char) (h : c ∉ l) :
    splitOnChar c l = [l] := by
  induction l with
  | nil => rfl
  | cons x r ih =>
    rw [splitOnChar, if_neg (fun hx => h (List.mem_cons.mpr (Or.inl hx.symm))),
      ih (fun hm => h (List.mem_cons_of_mem x hm))]

lemma splitOnChar_append (c : Char) (a b : List Char) (ha : c ∉ a) :
    splitOnChar c (a ++ c :: b) = a :: splitOnChar c b := by
  induction a with
  | nil => rw [List.nil_append, splitOnChar, if_pos rfl]
  | cons x r ih =>
    rw [List.cons_append, splitOnChar,
      if_neg (fun hx => ha (List.mem_cons.mpr (Or.inl hx.symm))),
      ih (fun hm => ha (List.mem_cons_of_mem x hm))]

lemma splitOnChar_joinWith (c : Char) (tokens : List (List Char))
    (hne : tokens ≠ []) (hmem : ∀ t ∈ tokens, c ∉ t) :
    splitOnChar c (joinWith c tokens) = tokens := by
  induction tokens with
  | nil => exact absurd rfl hne
  | cons t ts ih =>
    match ts with
    | [] =>
      rw [joinWith]
      exact splitOnChar_of_not_mem c t (hmem t (List.mem_cons_self t []))
    | u :: us =>
      have hsp := ih (List.cons_ne_nil u us)
        (fun x hx => hmem x (List.mem_cons_of_mem t hx))
      rw [joinWith, splitOnChar_append c t _ (hmem t (List.mem_cons_self t _)), hsp]
      exact List.cons_ne_nil u us

lemma natOfDigits_append_one (l : List Char) (d : Char) :
    natOfDigits (l ++ [d]) = natOfDigits l * 10 + (d.toNat - 48) := by
  rw [natOfDigits, List.foldl_append]
  rfl

lemma digitChar_isDigit (d : ℕ) (hd : d < 10) : (Char.ofNat (48 + d)).isDigit = true := by
  interval_cases d <;> decide

lemma digitChar_toNat (d : ℕ) (hd : d < 10) : (Char.ofNat (48 + d)).toNat = 48 + d := by
  interval_cases d <;> decide

lemma natToCharsGo_spec :
    ∀ fuel n, n ≤ fuel →
      natToCharsGo fuel n ≠ [] ∧ (∀ ch ∈ natToCharsGo fuel n, ch.isDigit) ∧
      natOfDigits (natToCharsGo fuel n) = n := by
  intro fuel
  induction fuel with
  | zero =>
    intro n hn
    have h0 : n = 0 := by omega
    subst h0
    refine ⟨by rw [natToCharsGo]; exact List.cons_ne_nil _ _, ?_, by decide⟩
    intro ch hch
    rw [natToCharsGo] at hch
    rcases List.mem_singleton.mp hch with rfl
    decide
  | succ fuel ih =>
    intro n hn
    by_cases h10 : n < 10
    · rw [natToCharsGo, if_pos h10]
      refine ⟨List.cons_ne_nil _ _, ?_, ?_⟩
      · intro ch hch
        rcases List.mem_singleton.mp hch with rfl
        exact digitChar_isDigit n h10
      · rw [natOfDigits]
        simp only [List.foldl_cons, List.foldl_nil]
        rw [digitChar_toNat n h10]
        omega
    · rw [natToCharsGo, if_neg h10]
      obtain ⟨hne, hdig, hval⟩ := ih (n / 10) (by omega)
      refine ⟨by simp [hne], ?_, ?_⟩
      · intro ch hch
        rcases List.mem_append.mp hch with h | h
        · exact hdig ch h
        · rcases List.mem_singleton.mp h with rfl
          exact digitChar_isDigit (n % 10) (by omega)
      · rw [natOfDigits_append_one, hval, digitChar_toNat (n % 10) (by omega)]
        omega

lemma natToChars_ne_nil (n : ℕ) : natToChars n ≠ [] :=
  (natToCharsGo_spec n n le_rfl).1

lemma natToChars_digits (n : ℕ) : ∀ ch ∈ natToChars n, ch.isDigit :=
  (natToCharsGo_spec n n le_rfl).2.1

lemma natOfDigits_natToChars (n : ℕ) : natOfDigits (natToChars n) = n :=
  (natToCharsGo_spec n n le_rfl).2.2

/-- A decimal digit character is none of the punctuation characters the
codecs split on. -/
lemma digit_not_special (ch : Char) (h : ch.isDigit = true) :
    ch ≠ '-' ∧ ch ≠ '+' ∧ ch ≠ '.' ∧ ch ≠ ',' ∧ ch ≠ ':' ∧ ch ≠ ' ' ∧
      ch.isWhitespace = false := by
  have hne : ∀ c' : Char, c'.isDigit = false → ch ≠ c' := by
    intro c' hc' heq
    rw [heq, hc'] at h
    exact absurd h (by decide)
  refine ⟨hne '-' (by decide), hne '+' (by decide), hne '.' (by decide),
    hne ',' (by decide), hne ':' (by decide), hne ' ' (by decide), ?_⟩
  have h1 := hne ' ' (by decide)
  have h2 := hne '\t' (by decide)
  have h3 := hne '\r' (by decide)
  have h4 := hne '\n' (by decide)
  rw [Char.isWhitespace]
  simp [h1, h2, h3, h4]

lemma intToChars_mem (m : ℤ) :
    ∀ ch ∈ intToChars m, ch.isDigit = true ∨ ch = '-' := by
  intro ch hch
  rw [intToChars] at hch
  by_cases hm : m < 0
  · rw [if_pos hm] at hch
    rcases List.mem_cons.mp hch with h | h
    · exact Or.inr h
    · exact Or.inl (natToChars_digits _ ch h)
  · rw [if_neg hm] at hch
    exact Or.inl (natToChars_digits _ ch hch)

lemma intToChars_no_ws (m : ℤ) : ∀ ch ∈ intToChars m, ch.isWhitespace = false := by
  intro ch hch
  rcases intToChars_mem m ch hch with h | h
  · exact (digit_not_special ch h).2.2.2.2.2.2
  · rw [h]
    decide

lemma intToChars_not_comma (m : ℤ) : ',' ∉ intToChars m := by
  intro hch
  rcases intToChars_mem m ',' hch with h | h
  · exact absurd h (by decide)
  · exact absurd h (by decide)

lemma intToChars_not_space (m : ℤ) : ' ' ∉ intToChars m := by
  intro hch
  rcases intToChars_mem m ' ' hch with h | h
  · exact absurd h (by decide)
  · exact absurd h (by decide)

lemma intToChars_not_dot (m : ℤ) : '.' ∉ intToChars m := by
  intro hch
  rcases intToChars_mem m '.' hch with h | h
  · exact absurd h (by decide)
  · exact absurd h (by decide)

lemma dropWhile_of_none {p : Char → Bool} (l : List Char)
    (h : ∀ c ∈ l, p c = false) : l.dropWhile p = l := by
  cases l with
  | nil => rfl
  | cons x r =>
    rw [List.dropWhile_cons, if_neg (by rw [h x (List.mem_cons_self x r)]; exact
      Bool.false_ne_true)]

lemma trimWs_of_none (l : List Char) (h : ∀ c ∈ l, c.isWhitespace = false) :
    ((l.dropWhile Char.isWhitespace).reverse.dropWhile Char.isWhitespace).reverse = l := by
  rw [dropWhile_of_none l h,
    dropWhile_of_none l.reverse (fun c hc => h c (List.mem_reverse.mp hc)),
    List.reverse_reverse]

lemma mapExcept_of_forall {α β : Type} (f : α → Except PyError β) (l : List α)
    (g : α → β) (h : ∀ x ∈ l, f x = .ok (g x)) : mapExcept f l = .ok (l.map g) := by
  induction l with
  | nil => rfl
  | cons x r ih =>
    rw [mapExcept, h x (List.mem_cons_self x r),
      ih (fun y hy => h y (List.mem_cons_of_mem x hy))]
    rfl

lemma parseIntZ_intToChars (m : ℤ) : parseIntZ (intToChars m) = .ok m := by
  have htrim :
      (((intToChars m).dropWhile Char.isWhitespace).reverse.dropWhile
        Char.isWhitespace).reverse = intToChars m :=
    trimWs_of_none _ (intToChars_no_ws m)
  rw [parseIntZ, htrim]
  by_cases hm : m < 0
  · rw [intToChars, if_pos hm]
    have hh : ('-' :: natToChars m.natAbs).head? = some '-' := rfl
    rw [hh, if_pos rfl, if_pos (Or.inl rfl)]
    show (if (natToChars m.natAbs ≠ [] ∧ (natToChars m.natAbs).all Char.isDigit) then
        Except.ok ((-1 : ℤ) * natOfDigits (natToChars m.natAbs))
      else Except.error PyError.valueError) = Except.ok m
    rw [if_pos ⟨natToChars_ne_nil _, List.all_eq_true.mpr (natToChars_digits _)⟩,
      natOfDigits_natToChars]
    congr 1
    omega
  · rw [intToChars, if_neg hm]
    have hhead : ∀ c', (natToChars m.toNat).head? = some c' → c'.isDigit = true := by
      intro c' hc'
      exact natToChars_digits _ c' (List.mem_of_mem_head? hc')
    have hd : ¬(natToChars m.toNat).head? = some '-' := by
      intro hco
      exact absurd (hhead '-' hco) (by decide)
    have hp : ¬(natToChars m.toNat).head? = some '+' := by
      intro hco
      exact absurd (hhead '+' hco) (by decide)
    rw [if_neg hd,
      if_neg (show ¬((natToChars m.toNat).head? = some '-' ∨
        (natToChars m.toNat).head? = some '+') from not_or.mpr ⟨hd, hp⟩),
      if_pos ⟨natToChars_ne_nil _, List.all_eq_true.mpr (natToChars_digits _)⟩,
      natOfDigits_natToChars]
    congr 1
    omega

/-! ## Exact-integer rationals under the numeric conversions -/

lemma floor_den_one (q : ℚ) (h : q.den = 1) : ⌊q⌋ = q.num := by
  conv_lhs => rw [← (Rat.den_eq_one_iff q).mp h]
  exact Int.floor_intCast q.num

lemma rhe_den_one (q : ℚ) (h : q.den = 1) : rhe q = q.num := by
  show (if q - ⌊q⌋ < 1 / 2 then ⌊q⌋
    else if 1 / 2 < q - ⌊q⌋ then ⌊q⌋ + 1
    else if 2 ∣ ⌊q⌋ then ⌊q⌋ else ⌊q⌋ + 1) = q.num
  have hf : q - ((⌊q⌋ : ℤ) : ℚ) = 0 := by
    rw [floor_den_one q h, (Rat.den_eq_one_iff q).mp h]
    exact sub_self q
  rw [hf, if_pos (by norm_num : (0 : ℚ) < 1 / 2)]
  exact floor_den_one q h

lemma rhe_intCast (m : ℤ) : rhe (m : ℚ) = m := by
  rw [rhe_den_one _ (Rat.den_intCast m), Rat.num_intCast]

lemma pyInt_den_one (q : ℚ) (h : q.den = 1) : pyInt q = q.num := by
  rw [pyInt]
  by_cases h0 : 0 ≤ q
  · rw [if_pos h0]
    exact floor_den_one q h
  · rw [if_neg h0]
    conv_lhs => rw [← (Rat.den_eq_one_iff q).mp h]
    exact Int.ceil_intCast q.num

lemma pyInt_cast (q : ℚ) (h : q.den = 1) : ((pyInt q : ℤ) : ℚ) = q := by
  rw [pyInt_den_one q h]
  exact (Rat.den_eq_one_iff q).mp h

lemma dot_not_in_natToChars (n : ℕ) : '.' ∉ natToChars n := by
  intro hch
  exact absurd rfl (digit_not_special '.' (natToChars_digits n '.' hch)).2.2.1

lemma parseFloatQ_intToChars (m : ℤ) : parseFloatQ (intToChars m) = .ok (m : ℚ) := by
  have htrim :
      (((intToChars m).dropWhile Char.isWhitespace).reverse.dropWhile
        Char.isWhitespace).reverse = intToChars m :=
    trimWs_of_none _ (intToChars_no_ws m)
  rw [parseFloatQ, htrim]
  by_cases hm : m < 0
  · rw [intToChars, if_pos hm]
    have hh : ('-' :: natToChars m.natAbs).head? = some '-' := rfl
    rw [hh, if_pos rfl, if_pos (Or.inl rfl), List.tail_cons,
      splitOnChar_of_not_mem '.' (natToChars m.natAbs) (dot_not_in_natToChars _)]
    show (if (natToChars m.natAbs ≠ [] ∧ (natToChars m.natAbs).all Char.isDigit) then
        Except.ok ((-1 : ℚ) * (natOfDigits (natToChars m.natAbs) : ℚ))
      else Except.error PyError.valueError) = Except.ok (m : ℚ)
    rw [if_pos ⟨natToChars_ne_nil _, List.all_eq_true.mpr (natToChars_digits _)⟩,
      natOfDigits_natToChars]
    congr 1
    have h0 : (m.natAbs : ℤ) = -m := by omega
    have h1 : ((m.natAbs : ℕ) : ℚ) = -(m : ℚ) := by
      rw [← Int.cast_natCast, h0, Int.cast_neg]
    rw [h1]
    ring
  · rw [intToChars, if_neg hm]
    have hhead : ∀ c', (natToChars m.toNat).head? = some c' → c'.isDigit = true := by
      intro c' hc'
      exact natToChars_digits _ c' (List.mem_of_mem_head? hc')
    have hd : ¬(natToChars m.toNat).head? = some '-' := by
      intro hco
      exact absurd (hhead '-' hco) (by decide)
    have hp : ¬(natToChars m.toNat).head? = some '+' := by
      intro hco
      exact absurd (hhead '+' hco) (by decide)
    rw [if_neg hd,
      if_neg (show ¬((natToChars m.toNat).head? = some '-' ∨
        (natToChars m.toNat).head? = some '+') from not_or.mpr ⟨hd, hp⟩),
      splitOnChar_of_not_mem '.' (natToChars m.toNat) (dot_not_in_natToChars _)]
    show (if (natToChars m.toNat ≠ [] ∧ (natToChars m.toNat).all Char.isDigit) then
        Except.ok ((1 : ℚ) * (natOfDigits (natToChars m.toNat) : ℚ))
      else Except.error PyError.valueError) = Except.ok (m : ℚ)
    rw [if_pos ⟨natToChars_ne_nil _, List.all_eq_true.mpr (natToChars_digits _)⟩,
      natOfDigits_natToChars]
    congr 1
    have h1 : ((m.toNat : ℕ) : ℚ) = (m : ℚ) := by
      rw [← Int.cast_natCast, Int.toNat_of_nonneg (not_lt.mp hm)]
    rw [h1]
    ring

/-! ## The one-decimal format and its JSON reading -/

lemma fmt1_mem (q : ℚ) : ∀ ch ∈ fmt1 q, ch.isDigit = true ∨ ch = '-' ∨ ch = '.' := by
  intro ch hch
  have hch' : ch ∈ ((if rhe (10 * q) < 0 then ['-'] else ([] : List Char)) ++
      natToChars ((rhe (10 * q)).natAbs / 10)) ++
        '.' :: [Char.ofNat (48 + (rhe (10 * q)).natAbs % 10)] := hch
  rcases List.mem_append.mp hch' with h | h
  · rcases List.mem_append.mp h with h2 | h2
    · by_cases hm : rhe (10 * q) < 0
      · rw [if_pos hm] at h2
        rcases List.mem_singleton.mp h2 with rfl
        exact Or.inr (Or.inl rfl)
      · rw [if_neg hm] at h2
        exact absurd h2 (List.not_mem_nil ch)
    · exact Or.inl (natToChars_digits _ ch h2)
  · rcases List.mem_cons.mp h with rfl | h3
    · exact Or.inr (Or.inr rfl)
    · rcases List.mem_singleton.mp h3 with rfl
      exact Or.inl (digitChar_isDigit _ (Nat.mod_lt _ (by norm_num)))

lemma fmt1_not_special (q : ℚ) (c : Char) (hc : c.isDigit = false) (h1 : c ≠ '-')
    (h2 : c ≠ '.') : c ∉ fmt1 q := by
  intro hch
  rcases fmt1_mem q c hch with h | h | h
  · rw [hc] at h
    exact Bool.false_ne_true h
  · exact h1 h
  · exact h2 h

lemma fmt1_no_ws (q : ℚ) : ∀ ch ∈ fmt1 q, ch.isWhitespace = false := by
  intro ch hch
  rcases fmt1_mem q ch hch with h | h | h
  · exact (digit_not_special ch h).2.2.2.2.2.2
  · rw [h]
    decide
  · rw [h]
    decide

lemma natOfDigits_single_digit (e : ℕ) (he : e < 10) :
    natOfDigits [Char.ofNat (48 + e)] = e := by
  show 0 * 10 + ((Char.ofNat (48 + e)).toNat - 48) = e
  rw [digitChar_toNat e he]
  omega

lemma dot_not_in_digits (ds : List Char) (hdig : ∀ ch ∈ ds, ch.isDigit = true) :
    '.' ∉ ds :=
  fun hmem => absurd rfl (digit_not_special '.' (hdig '.' hmem)).2.2.1

lemma dot_not_in_digitChar (e : ℕ) (he : e < 10) : '.' ∉ [Char.ofNat (48 + e)] := by
  intro hmem
  have heq := List.mem_singleton.mp hmem
  have hdd : ('.' : Char).isDigit = true := by
    rw [heq]
    exact digitChar_isDigit e he
  exact absurd hdd (by decide)

lemma jsonNum_digits_dot (ds : List Char) (e : ℕ) (hds : ds ≠ [])
    (hdig : ∀ ch ∈ ds, ch.isDigit = true) (he : e < 10) :
    jsonNum (ds ++ '.' :: [Char.ofNat (48 + e)]) =
      some ((natOfDigits ds : ℚ) + (e : ℚ) / 10) := by
  obtain ⟨c, cs', hcons⟩ := List.exists_cons_of_ne_nil hds
  subst hcons
  have hcd : c.isDigit = true := hdig c (List.mem_cons_self c cs')
  rw [jsonNum, List.cons_append]
  have hd : ¬((c :: (cs' ++ '.' :: [Char.ofNat (48 + e)])).head? = some '-') := by
    intro hco
    have hc : c = '-' := Option.some.inj hco
    rw [hc] at hcd
    exact absurd hcd (by decide)
  rw [if_neg hd, if_neg hd, ← List.cons_append,
    splitOnChar_append '.' (c :: cs') _ (dot_not_in_digits _ hdig),
    splitOnChar_of_not_mem '.' _ (dot_not_in_digitChar e he)]
  show (if ((c :: cs' : List Char) ≠ [] ∧ ([Char.ofNat (48 + e)] : List Char) ≠ [] ∧
      (c :: cs').all Char.isDigit ∧ ([Char.ofNat (48 + e)] : List Char).all Char.isDigit) then
      some ((1 : ℚ) * ((natOfDigits (c :: cs') : ℚ) +
        (natOfDigits [Char.ofNat (48 + e)] : ℚ) / (10 : ℚ) ^ (1 : ℕ)))
    else none) = some ((natOfDigits (c :: cs') : ℚ) + (e : ℚ) / 10)
  rw [if_pos ⟨List.cons_ne_nil _ _, List.cons_ne_nil _ _, List.all_eq_true.mpr hdig,
      List.all_eq_true.mpr (fun ch hch => by
        rcases List.mem_singleton.mp hch with rfl
        exact digitChar_isDigit e he)⟩,
    natOfDigits_single_digit e he, pow_one]
  congr 1
  ring

lemma jsonNum_neg_digits_dot (ds : List Char) (e : ℕ) (hds : ds ≠ [])
    (hdig : ∀ ch ∈ ds, ch.isDigit = true) (he : e < 10) :
    jsonNum ('-' :: (ds ++ '.' :: [Char.ofNat (48 + e)])) =
      some (-((natOfDigits ds : ℚ) + (e : ℚ) / 10)) := by
  rw [jsonNum]
  have hh : (('-' :: (ds ++ '.' :: [Char.ofNat (48 + e)])).head? = some '-') := rfl
  rw [hh, if_pos rfl, if_pos rfl, List.tail_cons,
    splitOnChar_append '.' ds _ (dot_not_in_digits _ hdig),
    splitOnChar_of_not_mem '.' _ (dot_not_in_digitChar e he)]
  show (if (ds ≠ [] ∧ ([Char.ofNat (48 + e)] : List Char) ≠ [] ∧
      ds.all Char.isDigit ∧ ([Char.ofNat (48 + e)] : List Char).all Char.isDigit) then
      some ((-1 : ℚ) * ((natOfDigits ds : ℚ) +
        (natOfDigits [Char.ofNat (48 + e)] : ℚ) / (10 : ℚ) ^ (1 : ℕ)))
    else none) = some (-((natOfDigits ds : ℚ) + (e : ℚ) / 10))
  rw [if_pos ⟨hds, List.cons_ne_nil _ _, List.all_eq_true.mpr hdig,
      List.all_eq_true.mpr (fun ch hch => by
        rcases List.mem_singleton.mp hch with rfl
        exact digitChar_isDigit e he)⟩,
    natOfDigits_single_digit e he, pow_one]
  congr 1
  ring

lemma jsonNum_fmt1 (q : ℚ) (h : (10 * q).den = 1) : jsonNum (fmt1 q) = some q := by
  have hm : rhe (10 * q) = (10 * q).num := rhe_den_one _ h
  have hnum : (((10 * q).num : ℤ) : ℚ) = 10 * q := (Rat.den_eq_one_iff _).mp h
  have hdm : 10 * (((rhe (10 * q)).natAbs / 10 : ℕ) : ℚ) +
      (((rhe (10 * q)).natAbs % 10 : ℕ) : ℚ) = ((rhe (10 * q)).natAbs : ℚ) := by
    exact_mod_cast congrArg (fun n : ℕ => (n : ℚ)) (Nat.div_add_mod (rhe (10 * q)).natAbs 10)
  have hsum : (((rhe (10 * q)).natAbs / 10 : ℕ) : ℚ) +
      (((rhe (10 * q)).natAbs % 10 : ℕ) : ℚ) / 10 = ((rhe (10 * q)).natAbs : ℚ) / 10 := by
    rw [← hdm]
    ring
  by_cases hneg : rhe (10 * q) < 0
  · have hL : fmt1 q = '-' :: (natToChars ((rhe (10 * q)).natAbs / 10) ++
        '.' :: [Char.ofNat (48 + (rhe (10 * q)).natAbs % 10)]) := by
      show ((if rhe (10 * q) < 0 then ['-'] else []) ++
        natToChars ((rhe (10 * q)).natAbs / 10)) ++
          '.' :: [Char.ofNat (48 + (rhe (10 * q)).natAbs % 10)] = _
      rw [if_pos hneg, List.singleton_append, List.cons_append]
    rw [hL, jsonNum_neg_digits_dot _ _ (natToChars_ne_nil _) (natToChars_digits _)
        (Nat.mod_lt _ (by norm_num)),
      natOfDigits_natToChars]
    congr 1
    rw [hsum]
    have habs : ((rhe (10 * q)).natAbs : ℚ) = -(10 * q) := by
      have h0 : ((rhe (10 * q)).natAbs : ℤ) = -(10 * q).num := by
        rw [← hm]
        omega
      rw [← Int.cast_natCast, h0, Int.cast_neg, hnum]
    rw [habs]
    ring
  · have hL : fmt1 q = natToChars ((rhe (10 * q)).natAbs / 10) ++
        '.' :: [Char.ofNat (48 + (rhe (10 * q)).natAbs % 10)] := by
      show ((if rhe (10 * q) < 0 then ['-'] else []) ++
        natToChars ((rhe (10 * q)).natAbs / 10)) ++
          '.' :: [Char.ofNat (48 + (rhe (10 * q)).natAbs % 10)] = _
      rw [if_neg hneg, List.nil_append]
    rw [hL, jsonNum_digits_dot _ _ (natToChars_ne_nil _) (natToChars_digits _)
        (Nat.mod_lt _ (by norm_num)),
      natOfDigits_natToChars]
    congr 1
    rw [hsum]
    have habs : ((rhe (10 * q)).natAbs : ℚ) = 10 * q := by
      have h0 : ((rhe (10 * q)).natAbs : ℤ) = (10 * q).num := by
        rw [← hm]
        omega
      rw [← Int.cast_natCast, h0, hnum]
    rw [habs]
    ring

lemma mapExcept_comp {α β : Type} (f : β → Except PyError α) (g : α → β) (l : List α)
    (h : ∀ x ∈ l, f (g x) = .ok x) : mapExcept f (l.map g) = .ok l := by
  induction l with
  | nil => rfl
  | cons x r ih =>
    rw [List.map_cons, mapExcept, h x (List.mem_cons_self x r),
      ih (fun y hy => h y (List.mem_cons_of_mem x hy))]
    rfl

lemma points_token_parse (a b : ℤ) :
    (match splitOnChar ',' (intToChars a ++ ',' :: intToChars b) with
      | [x, y] => do
        let fx ← parseFloatQ x
        let fy ← parseFloatQ y
        Except.ok (((rhe fx : ℤ) : ℚ), ((rhe fy : ℤ) : ℚ))
      | _ => Except.error PyError.valueError) =
      Except.ok (((a : ℤ) : ℚ), ((b : ℤ) : ℚ)) := by
  rw [splitOnChar_append ',' (intToChars a) (intToChars b) (intToChars_not_comma a),
    splitOnChar_of_not_mem ',' (intToChars b) (intToChars_not_comma b)]
  show (do
    let fx ← parseFloatQ (intToChars a)
    let fy ← parseFloatQ (intToChars b)
    Except.ok (((rhe fx : ℤ) : ℚ), ((rhe fy : ℤ) : ℚ))) =
    Except.ok (((a : ℤ) : ℚ), ((b : ℤ) : ℚ))
  rw [parseFloatQ_intToChars a, parseFloatQ_intToChars b]
  show Except.ok (((rhe ((a : ℤ) : ℚ) : ℤ) : ℚ), ((rhe ((b : ℤ) : ℚ) : ℤ) : ℚ)) = _
  rw [rhe_intCast, rhe_intCast]

lemma points_roundtrip (poly : List (ℚ × ℚ)) (hne : poly ≠ [])
    (hden : ∀ p ∈ poly, p.1.den = 1 ∧ p.2.den = 1) :
    points_string_to_array (pointsAttr poly) = .ok poly := by
  have hdata : (pointsAttr poly).data =
      joinWith ' '
        (poly.map (fun p => intToChars (pyInt p.1) ++ ',' :: intToChars (pyInt p.2))) := rfl
  rw [points_string_to_array, hdata,
    splitOnChar_joinWith ' ' _ (fun h => hne (List.map_eq_nil_iff.mp h)) ?hsp]
  case hsp =>
    intro t ht
    rcases List.mem_map.mp ht with ⟨p, hp, rfl⟩
    intro hsp
    rcases List.mem_append.mp hsp with h | h
    · exact intToChars_not_space _ h
    · rcases List.mem_cons.mp h with heq | h2
      · exact absurd heq (by decide)
      · exact intToChars_not_space _ h2
  refine mapExcept_comp _ _ poly ?_
  intro p hp
  have h1 := points_token_parse (pyInt p.1) (pyInt p.2)
  rw [pyInt_cast p.1 (hden p hp).1, pyInt_cast p.2 (hden p hp).2, Prod.mk.eta] at h1
  exact h1

/-! ## The `heights_v2` custom attribute round-trip -/

lemma containsSub_of_prefixOf (sub pre rest : List Char)
    (h : sub.isPrefixOf pre = true) : containsSub sub (pre ++ rest) = true := by
  have hpre : sub <+: (pre ++ rest) :=
    (List.isPrefixOf_iff_prefix.mp h).trans (List.prefix_append pre rest)
  cases hp : pre ++ rest with
  | nil =>
    rw [containsSub]
    have hsub : sub = [] := List.prefix_nil.mp (hp ▸ hpre)
    rw [hsub]
    rfl
  | cons c r =>
    rw [hp] at hpre
    rw [containsSub, if_pos (List.isPrefixOf_iff_prefix.mpr hpre)]

lemma runsOf_of_all_aux (p : Char → Bool) :
    ∀ (l : List Char), (∀ c ∈ l, p c = true) → ∀ cur,
      runsOf p l cur =
        if (cur.reverse ++ l).isEmpty then [] else [cur.reverse ++ l] := by
  intro l
  induction l with
  | nil =>
    intro _ cur
    cases cur with
    | nil => rfl
    | cons x xs =>
      rw [runsOf, List.append_nil]
      have h1 : ((x :: xs : List Char).isEmpty) = false := rfl
      have h2 : ((x :: xs : List Char).reverse.isEmpty) = false :=
        List.isEmpty_eq_false.mpr (by simp)
      rw [h1, h2]
  | cons c r ih =>
    intro hall cur
    rw [runsOf, if_pos (hall c (List.mem_cons_self c r)),
      ih (fun d hd => hall d (List.mem_cons_of_mem c hd)) (c :: cur),
      List.reverse_cons, List.append_assoc, List.singleton_append]

lemma pySplitChars_single (l : List Char) (hne : l ≠ [])
    (h : ∀ c ∈ l, c.isWhitespace = false) : pySplitChars l = [l] := by
  show runsOf (fun c => !c.isWhitespace) l [] = [l]
  rw [runsOf_of_all_aux _ l (fun c hc => by
      show (!c.isWhitespace) = true
      rw [h c hc]
      rfl) [],
    List.reverse_nil, List.nil_append,
    if_neg (by rw [List.isEmpty_eq_false.mpr hne]; exact Bool.false_ne_true)]

lemma exceptBindOk {α β : Type} (x : α) (f : α → Except PyError β) :
    (Except.ok x : Except PyError α) >>= f = f x := rfl

lemma jsonListOfNums_pair (h0 h1 : ℚ) (hd0 : (10 * h0).den = 1)
    (hd1 : (10 * h1).den = 1) :
    jsonListOfNums ('[' :: (fmt1 h0 ++ ',' :: (fmt1 h1 ++ [']']))) = .ok [h0, h1] := by
  show (if hlast : (fmt1 h0 ++ ',' :: (fmt1 h1 ++ [']'])).getLast? = some ']' then
      let inner := (fmt1 h0 ++ ',' :: (fmt1 h1 ++ [']'])).dropLast
      if inner.isEmpty then Except.ok []
      else
        mapExcept
          (fun e => match jsonNum e with
            | some v => Except.ok v
            | none => Except.error PyError.valueError)
          (splitOnChar ',' inner)
    else Except.error PyError.valueError) = Except.ok [h0, h1]
  have hW : fmt1 h0 ++ ',' :: (fmt1 h1 ++ [']']) = (fmt1 h0 ++ ',' :: fmt1 h1) ++ [']'] := by
    simp [List.append_assoc]
  rw [hW, dif_pos (List.getLast?_concat _), List.dropLast_concat]
  show (if (fmt1 h0 ++ ',' :: fmt1 h1 : List Char).isEmpty then Except.ok []
    else
      mapExcept
        (fun e => match jsonNum e with
          | some v => Except.ok v
          | none => Except.error PyError.valueError)
        (splitOnChar ',' (fmt1 h0 ++ ',' :: fmt1 h1))) = Except.ok [h0, h1]
  have hne : (fmt1 h0 ++ ',' :: fmt1 h1 : List Char) ≠ [] := fun hnil =>
    absurd (List.append_eq_nil.mp hnil).2 (List.cons_ne_nil _ _)
  rw [if_neg (fun hemp => absurd (List.isEmpty_iff.mp hemp) hne),
    splitOnChar_append ',' _ _ (fmt1_not_special h0 ',' (by decide) (by decide) (by decide)),
    splitOnChar_of_not_mem ',' _ (fmt1_not_special h1 ',' (by decide) (by decide) (by decide))]
  have hg0 : (match jsonNum (fmt1 h0) with
      | some v => Except.ok v
      | none => Except.error PyError.valueError) = Except.ok h0 := by
    rw [jsonNum_fmt1 h0 hd0]
  have hg1 : (match jsonNum (fmt1 h1) with
      | some v => Except.ok v
      | none => Except.error PyError.valueError) = Except.ok h1 := by
    rw [jsonNum_fmt1 h1 hd1]
  simp only [mapExcept, hg0, hg1, exceptBindOk]

lemma heights_custom_roundtrip (h0 h1 : ℚ) (hd0 : (10 * h0).den = 1)
    (hd1 : (10 * h1).den = 1) :
    heightsFromCustom ("heights_v2:[".data ++ fmt1 h0 ++ ',' :: fmt1 h1 ++ "]".data) =
      .ok (some [h0, h1]) := by
  have hassoc : "heights_v2:[".data ++ fmt1 h0 ++ ',' :: fmt1 h1 ++ "]".data =
      "heights_v2:[".data ++ (fmt1 h0 ++ ',' :: (fmt1 h1 ++ [']'])) := by
    have hrb : "]".data = [']'] := rfl
    rw [hrb]
    simp [List.append_assoc]
  rw [hassoc]
  have hALL : ∀ c ∈ "heights_v2:[".data ++ (fmt1 h0 ++ ',' :: (fmt1 h1 ++ [']'])),
      c.isWhitespace = false := by
    intro c hc
    rcases List.mem_append.mp hc with h | h
    · exact (by decide : ∀ c ∈ "heights_v2:[".data, c.isWhitespace = false) c h
    · rcases List.mem_append.mp h with h2 | h2
      · exact fmt1_no_ws h0 c h2
      · rcases List.mem_cons.mp h2 with rfl | h3
        · decide
        · rcases List.mem_append.mp h3 with h4 | h4
          · exact fmt1_no_ws h1 c h4
          · rcases List.mem_singleton.mp h4 with rfl
            decide
  have hin : pyIn "heights_v2"
      ⟨"heights_v2:[".data ++ (fmt1 h0 ++ ',' :: (fmt1 h1 ++ [']']))⟩ = true :=
    containsSub_of_prefixOf _ _ _ (by decide)
  have hnenil : "heights_v2:[".data ++ (fmt1 h0 ++ ',' :: (fmt1 h1 ++ [']'])) ≠ [] :=
    fun hnil => absurd (List.append_eq_nil.mp hnil).1 (by decide)
  rw [heightsFromCustom, if_pos hin, pySplitChars_single _ hnenil hALL, List.foldlM_cons]
  show ((if pyIn "heights_v2"
      (⟨"heights_v2:[".data ++ (fmt1 h0 ++ ',' :: (fmt1 h1 ++ [']']))⟩ : String) then
      match (splitOnChar ':'
          ("heights_v2:[".data ++ (fmt1 h0 ++ ',' :: (fmt1 h1 ++ [']'])))).get? 1 with
      | none => Except.error PyError.indexError
      | some p1 => do
        let v ← jsonListOfNums p1
        Except.ok (some v)
    else Except.ok none) >>= fun b' =>
      List.foldlM _ b' []) = Except.ok (some [h0, h1])
  rw [if_pos hin]
  have hnc : ':' ∉ '[' :: (fmt1 h0 ++ ',' :: (fmt1 h1 ++ [']'])) := by
    intro hmem
    rcases List.mem_cons.mp hmem with heq | h2
    · exact absurd heq (by decide)
    · rcases List.mem_append.mp h2 with h3 | h3
      · exact fmt1_not_special h0 ':' (by decide) (by decide) (by decide) h3
      · rcases List.mem_cons.mp h3 with heq | h4
        · exact absurd heq (by decide)
        · rcases List.mem_append.mp h4 with h5 | h5
          · exact fmt1_not_special h1 ':' (by decide) (by decide) (by decide) h5
          · rcases List.mem_singleton.mp h5 with heq
            exact absurd heq (by decide)
  have hcolon : splitOnChar ':'
      ("heights_v2:[".data ++ (fmt1 h0 ++ ',' :: (fmt1 h1 ++ [']']))) =
      ["heights_v2".data, '[' :: (fmt1 h0 ++ ',' :: (fmt1 h1 ++ [']']))] := by
    have hA : "heights_v2:[".data = "heights_v2".data ++ [':', '['] := by decide
    rw [hA, List.append_assoc]
    have hstep : ([':', '['] : List Char) ++ (fmt1 h0 ++ ',' :: (fmt1 h1 ++ [']'])) =
        ':' :: ('[' :: (fmt1 h0 ++ ',' :: (fmt1 h1 ++ [']']))) := rfl
    rw [hstep, splitOnChar_append ':' _ _ (by decide), splitOnChar_of_not_mem ':' _ hnc]
  rw [hcolon,
    (rfl : (["heights_v2".data,
      '[' :: (fmt1 h0 ++ ',' :: (fmt1 h1 ++ [']']))] : List (List Char)).get? 1 =
      some ('[' :: (fmt1 h0 ++ ',' :: (fmt1 h1 ++ [']']))))]
  show ((do
      let v ← jsonListOfNums ('[' :: (fmt1 h0 ++ ',' :: (fmt1 h1 ++ [']'])))
      Except.ok (some v)) >>= fun b' =>
      List.foldlM _ b' []) = Except.ok (some [h0, h1])
  rw [jsonListOfNums_pair h0 h1 hd0 hd1]
  rfl

/-! ## `iter`/`find` computation helpers for serialized trees -/

lemma iterTagList_nil (t : String) : Xml.iterTagList t [] = [] := rfl

lemma iterTagList_cons (t : String) (x : Xml) (xs : List Xml) :
    Xml.iterTagList t (x :: xs) = Xml.iterTag t x ++ Xml.iterTagList t xs := rfl

lemma iterTag_eq (t : String) (x : Xml) :
    Xml.iterTag t x = (if x.tag == t then [x] else []) ++ Xml.iterTagList t x.children := by
  cases x with
  | mk tag attrs children text => rfl

lemma iterTag_self (t : String) (x : Xml) (ht : (x.tag == t) = true)
    (hch : Xml.iterTagList t x.children = []) : Xml.iterTag t x = [x] := by
  rw [iterTag_eq, if_pos ht, hch, List.append_nil]

lemma iterTag_none (t : String) (x : Xml) (ht : (x.tag == t) = false)
    (hch : Xml.iterTagList t x.children = []) : Xml.iterTag t x = [] := by
  rw [iterTag_eq, if_neg (fun h => Bool.false_ne_true (ht ▸ h)), hch, List.append_nil]

lemma iterTagList_all_none (t : String) (l : List Xml)
    (h : ∀ x ∈ l, Xml.iterTag t x = []) : Xml.iterTagList t l = [] := by
  induction l with
  | nil => rfl
  | cons x xs ih =>
    rw [iterTagList_cons, h x (List.mem_cons_self x xs),
      ih (fun y hy => h y (List.mem_cons_of_mem x hy)), List.append_nil]

lemma iterTagList_all_self (t : String) (l : List Xml)
    (h : ∀ x ∈ l, Xml.iterTag t x = [x]) : Xml.iterTagList t l = l := by
  induction l with
  | nil => rfl
  | cons x xs ih =>
    rw [iterTagList_cons, h x (List.mem_cons_self x xs),
      ih (fun y hy => h y (List.mem_cons_of_mem x hy)), List.singleton_append]

lemma iterTagList_append (t : String) (a b : List Xml) :
    Xml.iterTagList t (a ++ b) = Xml.iterTagList t a ++ Xml.iterTagList t b := by
  induction a with
  | nil => rfl
  | cons x xs ih =>
    rw [List.cons_append, iterTagList_cons, ih, iterTagList_cons, List.append_assoc]

lemma lookupA_nil {α : Type} (k : String) : lookupA ([] : List (String × α)) k = none := rfl

/-! ## Serialized `TextLine` round-trip -/

lemma line_roundtrip (l : TextLine) (lid : String) (poly : List (ℚ × ℚ))
    (hid : l.id = some lid)
    (hpoly : l.polygon = some poly) (hpne : poly ≠ [])
    (hpden : ∀ p ∈ poly, p.1.den = 1 ∧ p.2.den = 1)
    (hbase : l.baseline = none ∨ ∃ b, l.baseline = some b ∧ b ≠ [] ∧
      ∀ p ∈ b, p.1.den = 1 ∧ p.2.den = 1)
    (hhts : l.heights = none ∨ ∃ a0 a1, l.heights = some [a0, a1] ∧
      (10 * a0).den = 1 ∧ (10 * a1).den = 1)
    (hlog : l.logits = none) (hchars : l.characters = none) :
    ∃ lx, lineToXml l = .ok lx ∧
      lx.tag = pageNS ++ "TextLine" ∧
      Xml.iterTag (pageNS ++ "TextLine") lx = [lx] ∧
      Xml.iterTag (pageNS ++ "TextRegion") lx = [] ∧
      parseTextLineX pageNS lx = .ok l := by
  have eCB : ((pageNS ++ "Coords" : String) == pageNS ++ "Baseline") = false := by decide
  have eCC : ((pageNS ++ "Coords" : String) == pageNS ++ "Coords") = true := by decide
  have eCT : ((pageNS ++ "Coords" : String) == pageNS ++ "TextEquiv") = false := by decide
  have eBB : ((pageNS ++ "Baseline" : String) == pageNS ++ "Baseline") = true := by decide
  have eBC : ((pageNS ++ "Baseline" : String) == pageNS ++ "Coords") = false := by decide
  have eBT : ((pageNS ++ "Baseline" : String) == pageNS ++ "TextEquiv") = false := by decide
  have eTT : ((pageNS ++ "TextEquiv" : String) == pageNS ++ "TextEquiv") = true := by decide
  have eTB : ((pageNS ++ "TextEquiv" : String) == pageNS ++ "Baseline") = false := by decide
  have eTC : ((pageNS ++ "TextEquiv" : String) == pageNS ++ "Coords") = false := by decide
  have eUU : ((pageNS ++ "Unicode" : String) == pageNS ++ "Unicode") = true := by decide
  have eLL : ((pageNS ++ "TextLine" : String) == pageNS ++ "TextLine") = true := by decide
  have eCL : ((pageNS ++ "Coords" : String) == pageNS ++ "TextLine") = false := by decide
  have eBL2 : ((pageNS ++ "Baseline" : String) == pageNS ++ "TextLine") = false := by decide
  have eTL : ((pageNS ++ "TextEquiv" : String) == pageNS ++ "TextLine") = false := by decide
  have eUL : ((pageNS ++ "Unicode" : String) == pageNS ++ "TextLine") = false := by decide
  have eLR : ((pageNS ++ "TextLine" : String) == pageNS ++ "TextRegion") = false := by decide
  have eCR : ((pageNS ++ "Coords" : String) == pageNS ++ "TextRegion") = false := by decide
  have eBR : ((pageNS ++ "Baseline" : String) == pageNS ++ "TextRegion") = false := by decide
  have eTGR : ((pageNS ++ "TextEquiv" : String) == pageNS ++ "TextRegion") = false := by decide
  have eUR : ((pageNS ++ "Unicode" : String) == pageNS ++ "TextRegion") = false := by decide
  have kIC : (("id" : String) = "custom") = False := eq_false (by decide)
  rcases hhts with hh | ⟨a0, a1, hh, ha0, ha1⟩
  · rcases hbase with hb | ⟨b, hb, hbne, hbden⟩
    · rcases htr : l.transcription with _ | t
      · refine ⟨Xml.mk (pageNS ++ "TextLine") [("id", lid)]
      [Xml.mk (pageNS ++ "Coords") [("points", pointsAttr poly)] [] none] none,
          ?_, rfl, ?_, ?_, ?_⟩
        · simp only [lineToXml, hid, hh, hpoly, hb, htr, exceptBindOk, List.cons_append,
            List.nil_append, List.append_nil, if_false]
        · simp only [Xml.iterTag, Xml.iterTagList, Xml.tag, eLL, eCL, eBL2, eTL, eUL,
              eLR, eCR, eBR, eTGR, eUR, eq_self_iff_true, if_true, if_false, Bool.false_eq_true,
              List.cons_append, List.nil_append, List.append_nil]
        · simp only [Xml.iterTag, Xml.iterTagList, Xml.tag, eLL, eCL, eBL2, eTL, eUL,
              eLR, eCR, eBR, eTGR, eUR, eq_self_iff_true, if_true, if_false, Bool.false_eq_true,
              List.cons_append, List.nil_append, List.append_nil]
        · simp only [parseTextLineX, Xml.attrib, Xml.getAttr, Xml.attrs, Xml.findTag,
              Xml.children, Xml.tag, Xml.text, parseTextEquiv, get_coords_form_page_xml,
              lookupA_cons, lookupA_nil, List.find?, List.cons_append, List.nil_append,
              List.append_nil, eq_self_iff_true, if_true, if_false, Bool.false_eq_true,
              kIC, eCB, eCC, eCT, eBB, eBC, eBT, eTT, eTB, eTC, eUU,
              exceptBindOk, Except.map, points_roundtrip poly hpne hpden, hh, hb, htr]
          rw [← hid, ← hb, ← hpoly, ← hh, ← htr, ← hlog, ← hchars]
      · have hgetd : (textNode t).getD "" = t := by
          rw [textNode]
          by_cases ht0 : t = ""
          · rw [if_pos ht0, ht0]
            rfl
          · rw [if_neg ht0]
            rfl
        refine ⟨Xml.mk (pageNS ++ "TextLine") [("id", lid)]
      [Xml.mk (pageNS ++ "Coords") [("points", pointsAttr poly)] [] none,
      Xml.mk (pageNS ++ "TextEquiv") [] [Xml.mk (pageNS ++ "Unicode") [] [] (textNode t)] none] none,
          ?_, rfl, ?_, ?_, ?_⟩
        · simp only [lineToXml, hid, hh, hpoly, hb, htr, exceptBindOk, List.cons_append,
            List.nil_append, List.append_nil, if_false, textEquivXml]
        · simp only [Xml.iterTag, Xml.iterTagList, Xml.tag, eLL, eCL, eBL2, eTL, eUL,
              eLR, eCR, eBR, eTGR, eUR, eq_self_iff_true, if_true, if_false, Bool.false_eq_true,
              List.cons_append, List.nil_append, List.append_nil]
        · simp only [Xml.iterTag, Xml.iterTagList, Xml.tag, eLL, eCL, eBL2, eTL, eUL,
              eLR, eCR, eBR, eTGR, eUR, eq_self_iff_true, if_true, if_false, Bool.false_eq_true,
              List.cons_append, List.nil_append, List.append_nil]
        · simp only [parseTextLineX, Xml.attrib, Xml.getAttr, Xml.attrs, Xml.findTag,
              Xml.children, Xml.tag, Xml.text, parseTextEquiv, get_coords_form_page_xml,
              lookupA_cons, lookupA_nil, List.find?, List.cons_append, List.nil_append,
              List.append_nil, eq_self_iff_true, if_true, if_false, Bool.false_eq_true,
              kIC, eCB, eCC, eCT, eBB, eBC, eBT, eTT, eTB, eTC, eUU,
              exceptBindOk, Except.map, points_roundtrip poly hpne hpden, hh, hb, htr, hgetd]
          rw [← hid, ← hb, ← hpoly, ← hh, ← htr, ← hlog, ← hchars]
    · rcases htr : l.transcription with _ | t
      · refine ⟨Xml.mk (pageNS ++ "TextLine") [("id", lid)]
      [Xml.mk (pageNS ++ "Coords") [("points", pointsAttr poly)] [] none,
      Xml.mk (pageNS ++ "Baseline") [("points", pointsAttr b)] [] none] none,
          ?_, rfl, ?_, ?_, ?_⟩
        · simp only [lineToXml, hid, hh, hpoly, hb, htr, exceptBindOk, List.cons_append,
            List.nil_append, List.append_nil, if_false]
        · simp only [Xml.iterTag, Xml.iterTagList, Xml.tag, eLL, eCL, eBL2, eTL, eUL,
              eLR, eCR, eBR, eTGR, eUR, eq_self_iff_true, if_true, if_false, Bool.false_eq_true,
              List.cons_append, List.nil_append, List.append_nil]
        · simp only [Xml.iterTag, Xml.iterTagList, Xml.tag, eLL, eCL, eBL2, eTL, eUL,
              eLR, eCR, eBR, eTGR, eUR, eq_self_iff_true, if_true, if_false, Bool.false_eq_true,
              List.cons_append, List.nil_append, List.append_nil]
        · simp only [parseTextLineX, Xml.attrib, Xml.getAttr, Xml.attrs, Xml.findTag,
              Xml.children, Xml.tag, Xml.text, parseTextEquiv, get_coords_form_page_xml,
              lookupA_cons, lookupA_nil, List.find?, List.cons_append, List.nil_append,
              List.append_nil, eq_self_iff_true, if_true, if_false, Bool.false_eq_true,
              kIC, eCB, eCC, eCT, eBB, eBC, eBT, eTT, eTB, eTC, eUU,
              exceptBindOk, Except.map, points_roundtrip poly hpne hpden, hh, hb, htr, points_roundtrip b hbne hbden]
          rw [← hid, ← hb, ← hpoly, ← hh, ← htr, ← hlog, ← hchars]
      · have hgetd : (textNode t).getD "" = t := by
          rw [textNode]
          by_cases ht0 : t = ""
          · rw [if_pos ht0, ht0]
            rfl
          · rw [if_neg ht0]
            rfl
        refine ⟨Xml.mk (pageNS ++ "TextLine") [("id", lid)]
      [Xml.mk (pageNS ++ "Coords") [("points", pointsAttr poly)] [] none,
      Xml.mk (pageNS ++ "Baseline") [("points", pointsAttr b)] [] none,
      Xml.mk (pageNS ++ "TextEquiv") [] [Xml.mk (pageNS ++ "Unicode") [] [] (textNode t)] none] none,
          ?_, rfl, ?_, ?_, ?_⟩
        · simp only [lineToXml, hid, hh, hpoly, hb, htr, exceptBindOk, List.cons_append,
            List.nil_append, List.append_nil, if_false, textEquivXml]
        · simp only [Xml.iterTag, Xml.iterTagList, Xml.tag, eLL, eCL, eBL2, eTL, eUL,
              eLR, eCR, eBR, eTGR, eUR, eq_self_iff_true, if_true, if_false, Bool.false_eq_true,
              List.cons_append, List.nil_append, List.append_nil]
        · simp only [Xml.iterTag, Xml.iterTagList, Xml.tag, eLL, eCL, eBL2, eTL, eUL,
              eLR, eCR, eBR, eTGR, eUR, eq_self_iff_true, if_true, if_false, Bool.false_eq_true,
              List.cons_append, List.nil_append, List.append_nil]
        · simp only [parseTextLineX, Xml.attrib, Xml.getAttr, Xml.attrs, Xml.findTag,
              Xml.children, Xml.tag, Xml.text, parseTextEquiv, get_coords_form_page_xml,
              lookupA_cons, lookupA_nil, List.find?, List.cons_append, List.nil_append,
              List.append_nil, eq_self_iff_true, if_true, if_false, Bool.false_eq_true,
              kIC, eCB, eCC, eCT, eBB, eBC, eBT, eTT, eTB, eTC, eUU,
              exceptBindOk, Except.map, points_roundtrip poly hpne hpden, hh, hb, htr, points_roundtrip b hbne hbden, hgetd]
          rw [← hid, ← hb, ← hpoly, ← hh, ← htr, ← hlog, ← hchars]
  · rcases hbase with hb | ⟨b, hb, hbne, hbden⟩
    · rcases htr : l.transcription with _ | t
      · have hlen2 : ((([a0, a1] : List ℚ).length < 2)) = False := eq_false (by norm_num)
        have hg0 : ([a0, a1] : List ℚ).getD 0 0 = a0 := rfl
        have hg1 : ([a0, a1] : List ℚ).getD 1 0 = a1 := rfl
        have hcus := heights_custom_roundtrip a0 a1 ha0 ha1
        simp only [List.cons_append, List.nil_append, List.append_nil] at hcus
        refine ⟨Xml.mk (pageNS ++ "TextLine") [("id", lid), ("custom", (⟨"heights_v2:[".data ++ fmt1 a0 ++ ',' :: fmt1 a1 ++ "]".data⟩ : String))]
      [Xml.mk (pageNS ++ "Coords") [("points", pointsAttr poly)] [] none] none,
          ?_, rfl, ?_, ?_, ?_⟩
        · simp only [lineToXml, hid, hh, hpoly, hb, htr, exceptBindOk, List.cons_append,
            List.nil_append, List.append_nil, if_false, hlen2, hg0, hg1]
        · simp only [Xml.iterTag, Xml.iterTagList, Xml.tag, eLL, eCL, eBL2, eTL, eUL,
              eLR, eCR, eBR, eTGR, eUR, eq_self_iff_true, if_true, if_false, Bool.false_eq_true,
              List.cons_append, List.nil_append, List.append_nil]
        · simp only [Xml.iterTag, Xml.iterTagList, Xml.tag, eLL, eCL, eBL2, eTL, eUL,
              eLR, eCR, eBR, eTGR, eUR, eq_self_iff_true, if_true, if_false, Bool.false_eq_true,
              List.cons_append, List.nil_append, List.append_nil]
        · simp only [parseTextLineX, Xml.attrib, Xml.getAttr, Xml.attrs, Xml.findTag,
              Xml.children, Xml.tag, Xml.text, parseTextEquiv, get_coords_form_page_xml,
              lookupA_cons, lookupA_nil, List.find?, List.cons_append, List.nil_append,
              List.append_nil, eq_self_iff_true, if_true, if_false, Bool.false_eq_true,
              kIC, eCB, eCC, eCT, eBB, eBC, eBT, eTT, eTB, eTC, eUU,
              exceptBindOk, Except.map, points_roundtrip poly hpne hpden, hh, hb, htr, hcus]
          rw [← hid, ← hb, ← hpoly, ← hh, ← htr, ← hlog, ← hchars]
      · have hlen2 : ((([a0, a1] : List ℚ).length < 2)) = False := eq_false (by norm_num)
        have hg0 : ([a0, a1] : List ℚ).getD 0 0 = a0 := rfl
        have hg1 : ([a0, a1] : List ℚ).getD 1 0 = a1 := rfl
        have hcus := heights_custom_roundtrip a0 a1 ha0 ha1
        simp only [List.cons_append, List.nil_append, List.append_nil] at hcus
        have hgetd : (textNode t).getD "" = t := by
          rw [textNode]
          by_cases ht0 : t = ""
          · rw [if_pos ht0, ht0]
            rfl
          · rw [if_neg ht0]
            rfl
        refine ⟨Xml.mk (pageNS ++ "TextLine") [("id", lid), ("custom", (⟨"heights_v2:[".data ++ fmt1 a0 ++ ',' :: fmt1 a1 ++ "]".data⟩ : String))]
      [Xml.mk (pageNS ++ "Coords") [("points", pointsAttr poly)] [] none,
      Xml.mk (pageNS ++ "TextEquiv") [] [Xml.mk (pageNS ++ "Unicode") [] [] (textNode t)] none] none,
          ?_, rfl, ?_, ?_, ?_⟩
        · simp only [lineToXml, hid, hh, hpoly, hb, htr, exceptBindOk, List.cons_append,
            List.nil_append, List.append_nil, if_false, hlen2, hg0, hg1, textEquivXml]
        · simp only [Xml.iterTag, Xml.iterTagList, Xml.tag, eLL, eCL, eBL2, eTL, eUL,
              eLR, eCR, eBR, eTGR, eUR, eq_self_iff_true, if_true, if_false, Bool.false_eq_true,
              List.cons_append, List.nil_append, List.append_nil]
        · simp only [Xml.iterTag, Xml.iterTagList, Xml.tag, eLL, eCL, eBL2, eTL, eUL,
              eLR, eCR, eBR, eTGR, eUR, eq_self_iff_true, if_true, if_false, Bool.false_eq_true,
              List.cons_append, List.nil_append, List.append_nil]
        · simp only [parseTextLineX, Xml.attrib, Xml.getAttr, Xml.attrs, Xml.findTag,
              Xml.children, Xml.tag, Xml.text, parseTextEquiv, get_coords_form_page_xml,
              lookupA_cons, lookupA_nil, List.find?, List.cons_append, List.nil_append,
              List.append_nil, eq_self_iff_true, if_true, if_false, Bool.false_eq_true,
              kIC, eCB, eCC, eCT, eBB, eBC, eBT, eTT, eTB, eTC, eUU,
              exceptBindOk, Except.map, points_roundtrip poly hpne hpden, hh, hb, htr, hcus, hgetd]
          rw [← hid, ← hb, ← hpoly, ← hh, ← htr, ← hlog, ← hchars]
    · rcases htr : l.transcription with _ | t
      · have hlen2 : ((([a0, a1] : List ℚ).length < 2)) = False := eq_false (by norm_num)
        have hg0 : ([a0, a1] : List ℚ).getD 0 0 = a0 := rfl
        have hg1 : ([a0, a1] : List ℚ).getD 1 0 = a1 := rfl
        have hcus := heights_custom_roundtrip a0 a1 ha0 ha1
        simp only [List.cons_append, List.nil_append, List.append_nil] at hcus
        refine ⟨Xml.mk (pageNS ++ "TextLine") [("id", lid), ("custom", (⟨"heights_v2:[".data ++ fmt1 a0 ++ ',' :: fmt1 a1 ++ "]".data⟩ : String))]
      [Xml.mk (pageNS ++ "Coords") [("points", pointsAttr poly)] [] none,
      Xml.mk (pageNS ++ "Baseline") [("points", pointsAttr b)] [] none] none,
          ?_, rfl, ?_, ?_, ?_⟩
        · simp only [lineToXml, hid, hh, hpoly, hb, htr, exceptBindOk, List.cons_append,
            List.nil_append, List.append_nil, if_false, hlen2, hg0, hg1]
        · simp only [Xml.iterTag, Xml.iterTagList, Xml.tag, eLL, eCL, eBL2, eTL, eUL,
              eLR, eCR, eBR, eTGR, eUR, eq_self_iff_true, if_true, if_false, Bool.false_eq_true,
              List.cons_append, List.nil_append, List.append_nil]
        · simp only [Xml.iterTag, Xml.iterTagList, Xml.tag, eLL, eCL, eBL2, eTL, eUL,
              eLR, eCR, eBR, eTGR, eUR, eq_self_iff_true, if_true, if_false, Bool.false_eq_true,
              List.cons_append, List.nil_append, List.append_nil]
        · simp only [parseTextLineX, Xml.attrib, Xml.getAttr, Xml.attrs, Xml.findTag,
              Xml.children, Xml.tag, Xml.text, parseTextEquiv, get_coords_form_page_xml,
              lookupA_cons, lookupA_nil, List.find?, List.cons_append, List.nil_append,
              List.append_nil, eq_self_iff_true, if_true, if_false, Bool.false_eq_true,
              kIC, eCB, eCC, eCT, eBB, eBC, eBT, eTT, eTB, eTC, eUU,
              exceptBindOk, Except.map, points_roundtrip poly hpne hpden, hh, hb, htr, hcus, points_roundtrip b hbne hbden]
          rw [← hid, ← hb, ← hpoly, ← hh, ← htr, ← hlog, ← hchars]
      · have hlen2 : ((([a0, a1] : List ℚ).length < 2)) = False := eq_false (by norm_num)
        have hg0 : ([a0, a1] : List ℚ).getD 0 0 = a0 := rfl
        have hg1 : ([a0, a1] : List ℚ).getD 1 0 = a1 := rfl
        have hcus := heights_custom_roundtrip a0 a1 ha0 ha1
        simp only [List.cons_append, List.nil_append, List.append_nil] at hcus
        have hgetd : (textNode t).getD "" = t := by
          rw [textNode]
          by_cases ht0 : t = ""
          · rw [if_pos ht0, ht0]
            rfl
          · rw [if_neg ht0]
            rfl
        refine ⟨Xml.mk (pageNS ++ "TextLine") [("id", lid), ("custom", (⟨"heights_v2:[".data ++ fmt1 a0 ++ ',' :: fmt1 a1 ++ "]".data⟩ : String))]
      [Xml.mk (pageNS ++ "Coords") [("points", pointsAttr poly)] [] none,
      Xml.mk (pageNS ++ "Baseline") [("points", pointsAttr b)] [] none,
      Xml.mk (pageNS ++ "TextEquiv") [] [Xml.mk (pageNS ++ "Unicode") [] [] (textNode t)] none] none,
          ?_, rfl, ?_, ?_, ?_⟩
        · simp only [lineToXml, hid, hh, hpoly, hb, htr, exceptBindOk, List.cons_append,
            List.nil_append, List.append_nil, if_false, hlen2, hg0, hg1, textEquivXml]
        · simp only [Xml.iterTag, Xml.iterTagList, Xml.tag, eLL, eCL, eBL2, eTL, eUL,
              eLR, eCR, eBR, eTGR, eUR, eq_self_iff_true, if_true, if_false, Bool.false_eq_true,
              List.cons_append, List.nil_append, List.append_nil]
        · simp only [Xml.iterTag, Xml.iterTagList, Xml.tag, eLL, eCL, eBL2, eTL, eUL,
              eLR, eCR, eBR, eTGR, eUR, eq_self_iff_true, if_true, if_false, Bool.false_eq_true,
              List.cons_append, List.nil_append, List.append_nil]
        · simp only [parseTextLineX, Xml.attrib, Xml.getAttr, Xml.attrs, Xml.findTag,
              Xml.children, Xml.tag, Xml.text, parseTextEquiv, get_coords_form_page_xml,
              lookupA_cons, lookupA_nil, List.find?, List.cons_append, List.nil_append,
              List.append_nil, eq_self_iff_true, if_true, if_false, Bool.false_eq_true,
              kIC, eCB, eCC, eCT, eBB, eBC, eBT, eTT, eTB, eTC, eUU,
              exceptBindOk, Except.map, points_roundtrip poly hpne hpden, hh, hb, htr, hcus, points_roundtrip b hbne hbden, hgetd]
          rw [← hid, ← hb, ← hpoly, ← hh, ← htr, ← hlog, ← hchars]

/-- The conditions under which a `TextLine` survives the PAGE write/read
cycle unchanged: an id, a non-empty integer-valued polygon, an optional
non-empty integer-valued baseline, optional heights of exactly two
one-decimal values, and no logits or alphabet attached. -/
def GoodLine (l : TextLine) : Prop :=
  (∃ lid, l.id = some lid) ∧
  (∃ poly, l.polygon = some poly ∧ poly ≠ [] ∧ ∀ p ∈ poly, p.1.den = 1 ∧ p.2.den = 1) ∧
  (l.baseline = none ∨ ∃ b, l.baseline = some b ∧ b ≠ [] ∧
    ∀ p ∈ b, p.1.den = 1 ∧ p.2.den = 1) ∧
  (l.heights = none ∨ ∃ a0 a1, l.heights = some [a0, a1] ∧
    (10 * a0).den = 1 ∧ (10 * a1).den = 1) ∧
  l.logits = none ∧ l.characters = none

/-- A region round-trips when its polygon is non-empty and integer-valued
and all its lines are good. -/
def GoodRegion (r : RegionLayout) : Prop :=
  r.polygon ≠ [] ∧ (∀ p ∈ r.polygon, p.1.den = 1 ∧ p.2.den = 1) ∧ ∀ l ∈ r.lines, GoodLine l

/-- A page round-trips when it has an id and all regions are good. -/
def GoodPage (p : PageLayout) : Prop :=
  (∃ pid, p.id = some pid) ∧ ∀ r ∈ p.regions, GoodRegion r

lemma lines_roundtrip (ls : List TextLine) (h : ∀ l ∈ ls, GoodLine l) :
    ∃ lxs, mapExcept lineToXml ls = .ok lxs ∧
      Xml.iterTagList (pageNS ++ "TextLine") lxs = lxs ∧
      Xml.iterTagList (pageNS ++ "TextRegion") lxs = [] ∧
      (∀ lx ∈ lxs, lx.tag = pageNS ++ "TextLine") ∧
      mapExcept (parseTextLineX pageNS) lxs = .ok ls := by
  induction ls with
  | nil => exact ⟨[], rfl, rfl, rfl, fun lx hlx => absurd hlx (List.not_mem_nil lx), rfl⟩
  | cons l rest ih =>
    obtain ⟨⟨lid, hid⟩, ⟨poly, hpoly, hpne, hpden⟩, hbase, hhts, hlog, hchars⟩ :=
      h l (List.mem_cons_self l rest)
    obtain ⟨lx, hlx, htag, hitl, hitr, hparse⟩ :=
      line_roundtrip l lid poly hid hpoly hpne hpden hbase hhts hlog hchars
    obtain ⟨lxs, hmap, hl1, hl2, htags, hmap2⟩ :=
      ih (fun y hy => h y (List.mem_cons_of_mem l hy))
    refine ⟨lx :: lxs, ?_, ?_, ?_, ?_, ?_⟩
    · rw [mapExcept, hlx, hmap]
      rfl
    · rw [iterTagList_cons, hitl, hl1, List.singleton_append]
    · rw [iterTagList_cons, hitr, hl2, List.nil_append]
    · intro y hy
      rcases List.mem_cons.mp hy with rfl | hy2
      · exact htag
      · exact htags y hy2
    · rw [mapExcept, hparse, hmap2]
      rfl

lemma region_roundtrip (r : RegionLayout) (hr : GoodRegion r) :
    ∃ rx, regionToXml r = .ok rx ∧
      Xml.iterTag (pageNS ++ "TextRegion") rx = [rx] ∧
      (do
        let g ← get_region_from_page_xml rx pageNS
        let lines ← mapExcept (parseTextLineX pageNS) (rx.iterTag (pageNS ++ "TextLine"))
        Except.ok { g with lines := lines }) = Except.ok r := by
  obtain ⟨hrpne, hrpden, hrl⟩ := hr
  obtain ⟨lxs, hmap, hl1, hl2, htags, hmap2⟩ := lines_roundtrip r.lines hrl
  have eRR : ((pageNS ++ "TextRegion" : String) == pageNS ++ "TextRegion") = true := by decide
  have eRL : ((pageNS ++ "TextRegion" : String) == pageNS ++ "TextLine") = false := by decide
  have eCC : ((pageNS ++ "Coords" : String) == pageNS ++ "Coords") = true := by decide
  have eCT : ((pageNS ++ "Coords" : String) == pageNS ++ "TextEquiv") = false := by decide
  have eCR : ((pageNS ++ "Coords" : String) == pageNS ++ "TextRegion") = false := by decide
  have eCL : ((pageNS ++ "Coords" : String) == pageNS ++ "TextLine") = false := by decide
  have eTT : ((pageNS ++ "TextEquiv" : String) == pageNS ++ "TextEquiv") = true := by decide
  have eTGR : ((pageNS ++ "TextEquiv" : String) == pageNS ++ "TextRegion") = false := by decide
  have eTL : ((pageNS ++ "TextEquiv" : String) == pageNS ++ "TextLine") = false := by decide
  have eUU : ((pageNS ++ "Unicode" : String) == pageNS ++ "Unicode") = true := by decide
  have eUR : ((pageNS ++ "Unicode" : String) == pageNS ++ "TextRegion") = false := by decide
  have eUL : ((pageNS ++ "Unicode" : String) == pageNS ++ "TextLine") = false := by decide
  rcases htr : r.transcription with _ | t
  · refine ⟨Xml.mk (pageNS ++ "TextRegion") [("id", r.id)]
      (Xml.mk (pageNS ++ "Coords") [("points", pointsAttr r.polygon)] [] none :: lxs) none,
      ?_, ?_, ?_⟩
    · simp only [regionToXml, hmap, htr, exceptBindOk, List.cons_append, List.nil_append,
        List.append_nil]
    · simp only [Xml.iterTag, Xml.iterTagList, Xml.tag, Xml.children, eRR, eCR, eUR, hl2,
        eq_self_iff_true, if_true, if_false, Bool.false_eq_true, List.cons_append,
        List.nil_append, List.append_nil]
    · have hfind : List.find? (fun c => c.tag == pageNS ++ "TextEquiv") lxs = none :=
        List.find?_eq_none.mpr (fun x hx => by
          show ¬(x.tag == pageNS ++ "TextEquiv") = true
          rw [htags x hx]
          decide)
      simp only [Xml.tag] at hfind
      have hiterTL : Xml.iterTag (pageNS ++ "TextLine")
          (Xml.mk (pageNS ++ "TextRegion") [("id", r.id)]
            (Xml.mk (pageNS ++ "Coords") [("points", pointsAttr r.polygon)] [] none :: lxs)
            none) = lxs := by
        simp only [Xml.iterTag, Xml.iterTagList, Xml.tag, Xml.children, eRL, eCL, eUL, hl1,
          eq_self_iff_true, if_true, if_false, Bool.false_eq_true, List.cons_append,
          List.nil_append, List.append_nil]
      simp only [get_region_from_page_xml, get_coords_form_page_xml, Xml.attrib, Xml.getAttr,
        Xml.attrs, Xml.findTag, Xml.children, Xml.tag, Xml.text, parseTextEquiv, lookupA_cons,
        lookupA_nil, List.find?, eq_self_iff_true, if_true, if_false, Bool.false_eq_true,
        eCC, eCT, eTT, eUU, hfind, points_roundtrip r.polygon hrpne hrpden, exceptBindOk,
        hiterTL, hmap2, List.cons_append, List.nil_append, List.append_nil]
      rw [← htr]
  · refine ⟨Xml.mk (pageNS ++ "TextRegion") [("id", r.id)]
      (Xml.mk (pageNS ++ "Coords") [("points", pointsAttr r.polygon)] [] none ::
        Xml.mk (pageNS ++ "TextEquiv") [] [Xml.mk (pageNS ++ "Unicode") [] []
          (textNode t)] none :: lxs) none,
      ?_, ?_, ?_⟩
    · simp only [regionToXml, hmap, htr, exceptBindOk, textEquivXml, List.cons_append,
        List.nil_append, List.append_nil]
    · simp only [Xml.iterTag, Xml.iterTagList, Xml.tag, Xml.children, eRR, eCR, eTGR, eUR,
        hl2, eq_self_iff_true, if_true, if_false, Bool.false_eq_true, List.cons_append,
        List.nil_append, List.append_nil]
    · have hgetd : (textNode t).getD "" = t := by
        rw [textNode]
        by_cases ht0 : t = ""
        · rw [if_pos ht0, ht0]
          rfl
        · rw [if_neg ht0]
          rfl
      have hiterTL : Xml.iterTag (pageNS ++ "TextLine")
          (Xml.mk (pageNS ++ "TextRegion") [("id", r.id)]
            (Xml.mk (pageNS ++ "Coords") [("points", pointsAttr r.polygon)] [] none ::
              Xml.mk (pageNS ++ "TextEquiv") [] [Xml.mk (pageNS ++ "Unicode") [] []
                (textNode t)] none :: lxs) none) = lxs := by
        simp only [Xml.iterTag, Xml.iterTagList, Xml.tag, Xml.children, eRL, eCL, eTL, eUL,
          hl1, eq_self_iff_true, if_true, if_false, Bool.false_eq_true, List.cons_append,
          List.nil_append, List.append_nil]
      simp only [get_region_from_page_xml, get_coords_form_page_xml, Xml.attrib, Xml.getAttr,
        Xml.attrs, Xml.findTag, Xml.children, Xml.tag, Xml.text, parseTextEquiv, lookupA_cons,
        lookupA_nil, List.find?, eq_self_iff_true, if_true, if_false, Bool.false_eq_true,
        eCC, eCT, eTT, eUU, hgetd, points_roundtrip r.polygon hrpne hrpden, exceptBindOk,
        hiterTL, hmap2, List.cons_append, List.nil_append, List.append_nil]
      rw [← htr]

lemma regions_roundtrip (rs : List RegionLayout) (h : ∀ r ∈ rs, GoodRegion r) :
    ∃ rxs, mapExcept regionToXml rs = .ok rxs ∧
      Xml.iterTagList (pageNS ++ "TextRegion") rxs = rxs ∧
      mapExcept (fun re => do
        let g ← get_region_from_page_xml re pageNS
        let lines ← mapExcept (parseTextLineX pageNS) (re.iterTag (pageNS ++ "TextLine"))
        Except.ok { g with lines := lines }) rxs = .ok rs := by
  induction rs with
  | nil => exact ⟨[], rfl, rfl, rfl⟩
  | cons r rest ih =>
    obtain ⟨rx, hrx, hit, hdo⟩ := region_roundtrip r (h r (List.mem_cons_self r rest))
    obtain ⟨rxs, hmap, hitl, hdol⟩ := ih (fun y hy => h y (List.mem_cons_of_mem r hy))
    refine ⟨rx :: rxs, ?_, ?_, ?_⟩
    · rw [mapExcept, hrx, hmap]
      rfl
    · rw [iterTagList_cons, hit, hitl, List.singleton_append]
    · rw [mapExcept]
      simp only [hdo, hdol, exceptBindOk]

/-- C5: the PAGE-dialect round-trip. Parsing back `to_pagexml_string` output
recovers the page exactly — under the conditions the writer/reader pair
actually guarantees: the page has an id; every region polygon is non-empty
with integer-valued coordinates; every line has an id, a non-empty
integer-valued polygon, an optional non-empty integer-valued baseline,
optional heights that are exactly two one-decimal values, and no attached
logits or alphabet. -/
theorem pagexml_round_trip (page : PageLayout) (h : GoodPage page) :
    ∃ doc, to_pagexml_string page = .ok doc ∧ from_pagexml doc = .ok page := by
  obtain ⟨⟨pid, hpid⟩, hregs⟩ := h
  obtain ⟨rxs, hmap, hitl, hdo⟩ := regions_roundtrip page.regions hregs
  have ePP : ((pageNS ++ "Page" : String) == pageNS ++ "Page") = true := by decide
  have eGR : ((pageNS ++ "PcGts" : String) == pageNS ++ "TextRegion") = false := by decide
  have ePR : ((pageNS ++ "Page" : String) == pageNS ++ "TextRegion") = false := by decide
  have kFH : (("imageFilename" : String) = "imageHeight") = False := eq_false (by decide)
  have kFW : (("imageFilename" : String) = "imageWidth") = False := eq_false (by decide)
  have kWH : (("imageWidth" : String) = "imageHeight") = False := eq_false (by decide)
  have hIntH : parseIntZ (intToChars page.page_size.1) = .ok page.page_size.1 :=
    parseIntZ_intToChars _
  have hIntW : parseIntZ (intToChars page.page_size.2) = .ok page.page_size.2 :=
    parseIntZ_intToChars _
  refine ⟨Xml.mk (pageNS ++ "PcGts") []
    [Xml.mk (pageNS ++ "Page")
      [("imageFilename", pid), ("imageWidth", (⟨intToChars page.page_size.2⟩ : String)),
        ("imageHeight", (⟨intToChars page.page_size.1⟩ : String))]
      rxs none] none, ?_, ?_⟩
  · simp only [to_pagexml_string, hpid, hmap, exceptBindOk]
  · have hschema : element_schema (Xml.mk (pageNS ++ "PcGts") []
        [Xml.mk (pageNS ++ "Page")
          [("imageFilename", pid), ("imageWidth", (⟨intToChars page.page_size.2⟩ : String)),
            ("imageHeight", (⟨intToChars page.page_size.1⟩ : String))]
          rxs none] none) = .ok pageNS := rfl
    have hiter : Xml.iterTag (pageNS ++ "TextRegion")
        (Xml.mk (pageNS ++ "PcGts") []
          [Xml.mk (pageNS ++ "Page")
            [("imageFilename", pid),
              ("imageWidth", (⟨intToChars page.page_size.2⟩ : String)),
              ("imageHeight", (⟨intToChars page.page_size.1⟩ : String))]
            rxs none] none) = rxs := by
      simp only [Xml.iterTag, Xml.iterTagList, Xml.tag, Xml.children, eGR, ePR, hitl,
        eq_self_iff_true, if_true, if_false, Bool.false_eq_true, List.cons_append,
        List.nil_append, List.append_nil]
    simp only [from_pagexml, hschema, Xml.findall, Xml.children, Xml.tag, List.filter,
      Xml.attrib, Xml.getAttr, Xml.attrs, lookupA_cons, lookupA_nil, ePP, kFH, kFW, kWH,
      eq_self_iff_true, if_true, if_false, Bool.false_eq_true, hIntH, hIntW, hiter, hdo,
      exceptBindOk, Prod.mk.eta]
    rw [← hpid]

/-- A concrete page exercising every optional part of the round-trip: a
region with transcription and one line carrying id, polygon, baseline,
one-decimal heights and a transcription. -/
def pageSample : PageLayout :=
  { id := some "img.png", page_size := (1200, 800),
    regions := [{
      id := "r1",
      polygon := [(0, 0), (100, 0), (100, 50)],
      transcription := some "Hello",
      lines := [{
        id := some "l1",
        baseline := some [(0, 40), (100, 40)],
        polygon := some [(0, 0), (100, 50)],
        heights := some [31 / 2, 26 / 5],
        transcription := some "Hello",
        logits := none, characters := none }] }] }

theorem pagexml_round_trip_witness :
    GoodPage pageSample ∧
      ∃ doc, to_pagexml_string pageSample = .ok doc ∧
        from_pagexml doc = .ok pageSample := by
  have hgp : GoodPage pageSample := by
    refine ⟨⟨"img.png", rfl⟩, ?_⟩
    intro r hr
    rcases List.mem_singleton.mp hr with rfl
    refine ⟨by decide, by decide, ?_⟩
    intro l hl
    rcases List.mem_singleton.mp hl with rfl
    exact ⟨⟨"l1", rfl⟩, ⟨[(0, 0), (100, 50)], rfl, by decide, by decide⟩,
      Or.inr ⟨[(0, 40), (100, 40)], rfl, by decide, by decide⟩,
      Or.inr ⟨31 / 2, 26 / 5, rfl, by decide, by decide⟩, rfl, rfl⟩
  exact ⟨hgp, pagexml_round_trip pageSample hgp⟩
